import Mathlib

/-!
Shallow embedding of the MATLAB/tomlplusplus codec
(`toml_parse_file.cpp`, `toml_parse_string.cpp`, `toml_write_file.cpp`,
`toml_write_string.cpp`) and proofs about the claims of its specification.

Modelling conventions:
* `toml::node` trees are embedded as `TomlNode`; each table entry carries the
  optional source position that `node::source().begin` reports (`none` models a
  falsy `source_position`, i.e. a node created without parse provenance).
* `mxArray` host values are embedded as `MxArray`.  Finite IEEE doubles are
  embedded as exact rationals `Dbl` (numerator/denominator with a positive
  denominator by construction); this is exact for every finite double and all
  threshold constants used by the code are exactly representable, so every
  comparison taken by the embedded code agrees with the double-precision one.
  Infinities and NaN are separate constructors of `FVal`.
* `std::sort` over `FieldInfo` with `operator<` guarantees only a permutation
  of the input that is sorted with respect to the comparator; it is NOT
  stable, so the relative order of entries with equal `(line, column)`
  positions is unspecified.  To keep the converters executable functions the
  embedding fixes one contract-satisfying execution (an insertion sort); both
  readers share this single model choice, entries with pairwise distinct
  positions (every freshly parsed table) are ordered identically by every
  contract-satisfying execution, and no theorem below asserts a tie order
  among equal positions as program behaviour.
-/

/-- Source position of a parsed node: `source().begin.line/column`. -/
structure SrcPos where
  line : Nat
  column : Nat
deriving DecidableEq

/-- The sentinel position `UINT32_MAX` used by both parsers for nodes without
source information, so that they sort to the end. -/
def uint32Sentinel : Nat := 4294967295

/-- A `toml::date` (year/month/day). -/
structure TDate where
  year : Nat
  month : Nat
  day : Nat
deriving DecidableEq

/-- A `toml::time` (hour/minute/second/nanosecond). -/
structure TTime where
  hour : Nat
  minute : Nat
  second : Nat
  nanosecond : Nat
deriving DecidableEq

/-- A finite IEEE double, embedded as the exact rational `num / den`.
Every value constructed by the embedded code has `den > 0`; the arithmetic
helpers below assume this. -/
structure Dbl where
  num : Int
  den : Nat
deriving DecidableEq

/-- Strict comparison of two finite doubles (cross multiplication). -/
def Dbl.ltb (a b : Dbl) : Bool := a.num * (b.den : Int) < b.num * (a.den : Int)

/-- Non-strict comparison of two finite doubles. -/
def Dbl.leb (a b : Dbl) : Bool := a.num * (b.den : Int) ≤ b.num * (a.den : Int)

/-- The test `val == floor(val)` of the C++ code: the value is an integer. -/
def Dbl.isIntegral (a : Dbl) : Bool := a.num.emod (a.den : Int) == 0

/-- Mathematical floor of a finite double. -/
def Dbl.floorInt (a : Dbl) : Int := a.num.fdiv (a.den : Int)

/-- Truncation toward zero, the C++ `(int64_t)` cast for in-range values. -/
def Dbl.truncInt (a : Dbl) : Int := a.num.tdiv (a.den : Int)

/-- Absolute value of a finite double. -/
def Dbl.absD (a : Dbl) : Dbl := ⟨|a.num|, a.den⟩

/-- Sign test `val < 0`. -/
def Dbl.isNeg (a : Dbl) : Bool := a.num < 0

/-- Embedding of an integer as a finite double. -/
def Dbl.ofInt (n : Int) : Dbl := ⟨n, 1⟩

/-- Scaling by a power of ten (used to extract decimal digits). -/
def Dbl.mulPow10 (a : Dbl) (k : Int) : Dbl :=
  if 0 ≤ k then ⟨a.num * (10 ^ k.toNat : Nat), a.den⟩
  else ⟨a.num, a.den * 10 ^ (-k).toNat⟩

/-- Rounding to the nearest integer (half away from zero rounds up), the
model of the decimal rounding performed by `std::setprecision`. -/
def Dbl.roundInt (a : Dbl) : Int := (2 * a.num + (a.den : Int)).fdiv (2 * (a.den : Int))

/-- An IEEE double: finite value, signed infinity, or NaN. -/
inductive FVal where
  | fin : Dbl → FVal
  | inf : Bool → FVal
  | nan : FVal
deriving DecidableEq

/-- A parsed TOML document node (`toml::node`).  Table entries are listed in
`toml::table` iteration order and carry the source position of their value
node.  Integers carry the three `toml::value_flags` format bits
(hexadecimal, octal, binary); a datetime carries its optional offset in
minutes from UTC. -/
inductive TomlNode where
  | table : List (String × Option SrcPos × TomlNode) → TomlNode
  | arr : List TomlNode → TomlNode
  | str : String → TomlNode
  | intg : Int → Bool → Bool → Bool → TomlNode
  | flt : FVal → TomlNode
  | boolv : Bool → TomlNode
  | date : TDate → TomlNode
  | time : TTime → TomlNode
  | datetime : TDate → TTime → Option Int → TomlNode

/-- One table entry as consumed by `convert_table`. -/
abbrev TableField := String × Option SrcPos × TomlNode

/-- A MATLAB `mxArray`.  Numeric, logical and cell data are row vectors
(scalars are singleton lists); `mxStruct` is a 1x1 struct with ordered
fields; `mxDatetime` is a scalar MATLAB `datetime` described by the
components its accessor functions return. -/
inductive MxArray where
  | mxStruct : List (String × MxArray) → MxArray
  | mxCell : List MxArray → MxArray
  | mxChar : String → MxArray
  | mxLogical : List Bool → MxArray
  | mxInt64 : List Int → MxArray
  | mxDouble : List FVal → MxArray
  | mxDatetime : Nat → Nat → Nat → Nat → Nat → Dbl → MxArray

/-- The `mxIsEmpty` test: an array with zero elements.  A 1x1 struct and a
scalar datetime are never empty; an empty char array is `''`. -/
def mxIsEmpty : MxArray → Bool
  | MxArray.mxStruct _ => false
  | MxArray.mxCell l => l.isEmpty
  | MxArray.mxChar s => s.isEmpty
  | MxArray.mxLogical l => l.isEmpty
  | MxArray.mxInt64 l => l.isEmpty
  | MxArray.mxDouble l => l.isEmpty
  | MxArray.mxDatetime _ _ _ _ _ _ => false

/-- The `mxIsStruct` test. -/
def mxIsStructB : MxArray → Bool
  | MxArray.mxStruct _ => true
  | _ => false

/-- The `mxIsCell` test. -/
def mxIsCellB : MxArray → Bool
  | MxArray.mxCell _ => true
  | _ => false

/-- The field list of a struct (empty for non-structs). -/
def structFields : MxArray → List (String × MxArray)
  | MxArray.mxStruct fs => fs
  | _ => []

/-- The `mxGetNumberOfFields` accessor. -/
def mxGetNumberOfFields (mx : MxArray) : Nat := (structFields mx).length

/-- The `mxGetField` accessor: first field with the given name, if any. -/
def mxGetField (mx : MxArray) (name : String) : Option MxArray :=
  ((structFields mx).find? (fun p => p.1 == name)).map Prod.snd

/-- The element list of a cell array (empty for non-cells). -/
def cellElems : MxArray → List MxArray
  | MxArray.mxCell l => l
  | _ => []

/-- The `mxIsInt64` test (any shape). -/
def mxIsInt64B : MxArray → Bool
  | MxArray.mxInt64 _ => true
  | _ => false

/-- The `mxIsChar` test. -/
def mxIsCharB : MxArray → Bool
  | MxArray.mxChar _ => true
  | _ => false

/-- The `mxIsDouble` test. -/
def mxIsDoubleB : MxArray → Bool
  | MxArray.mxDouble _ => true
  | _ => false

/-- The `mxIsLogical` test. -/
def mxIsLogicalB : MxArray → Bool
  | MxArray.mxLogical _ => true
  | _ => false

/-- The test `strcmp(mxGetClassName(mx), "datetime") == 0`. -/
def mxIsDatetimeB : MxArray → Bool
  | MxArray.mxDatetime _ _ _ _ _ _ => true
  | _ => false

/-- The `node.is_integer()` test. -/
def isIntegerNode : TomlNode → Bool
  | TomlNode.intg _ _ _ _ => true
  | _ => false

/-- The `node.is_floating_point()` test (true only for TOML floats; a TOML
integer is not a floating-point node). -/
def isFloatNode : TomlNode → Bool
  | TomlNode.flt _ => true
  | _ => false

/-- The `node.is_boolean()` test. -/
def isBooleanNode : TomlNode → Bool
  | TomlNode.boolv _ => true
  | _ => false

/-- The `value_or<int64_t>(0)` extraction. -/
def intValueOr0 : TomlNode → Int
  | TomlNode.intg v _ _ _ => v
  | _ => 0

/-- The `value_or<double>(0.0)` extraction (only applied to float nodes). -/
def fltValueOr0 : TomlNode → FVal
  | TomlNode.flt v => v
  | _ => FVal.fin (Dbl.ofInt 0)

/-- The `value_or<bool>(false)` extraction. -/
def boolValueOrFalse : TomlNode → Bool
  | TomlNode.boolv b => b
  | _ => false

/-- The `FieldInfo` record both parsers build for every table entry: key,
resolved source position (or the `UINT32_MAX` sentinel) and the node. -/
structure FieldInfo where
  key : String
  line : Nat
  column : Nat
  node : TomlNode

/-- The `FieldInfo::operator<` comparator: by line, then by column. -/
def posLtB (a b : FieldInfo) : Bool :=
  a.line < b.line || (a.line == b.line && a.column < b.column)

theorem posLtB_iff (a b : FieldInfo) :
    posLtB a b = true ↔ a.line < b.line ∨ (a.line = b.line ∧ a.column < b.column) := by
  simp [posLtB]

/-- The non-strict order induced by `operator<`, used to state that the
sorted vector is sorted. -/
def fieldLe (a b : FieldInfo) : Prop := posLtB b a = false

instance : DecidableRel fieldLe := fun _ _ => instDecidableEqBool _ _

instance : IsTotal FieldInfo fieldLe := by
  constructor
  intro a b
  rcases Bool.eq_false_or_eq_true (posLtB b a) with h | h
  · right
    rw [posLtB_iff] at h
    rw [fieldLe, Bool.eq_false_iff]
    intro hc
    rw [posLtB_iff] at hc
    omega
  · exact Or.inl h

instance : IsTrans FieldInfo fieldLe := by
  constructor
  intro a b c hab hbc
  rw [fieldLe, Bool.eq_false_iff] at hab hbc ⊢
  intro h
  rw [posLtB_iff] at h
  have h1 : ¬ (b.line < a.line ∨ (b.line = a.line ∧ b.column < a.column)) :=
    fun hc => hab ((posLtB_iff _ _).mpr hc)
  have h2 : ¬ (c.line < b.line ∨ (c.line = b.line ∧ c.column < b.column)) :=
    fun hc => hbc ((posLtB_iff _ _).mpr hc)
  omega

/-- Decoration step of `convert_table`: every entry becomes a `FieldInfo`
whose position is the source position when present and the `UINT32_MAX`
sentinel otherwise. -/
def decorateFields (fields : List TableField) : List FieldInfo :=
  fields.map (fun e =>
    { key := e.1
      line := match e.2.1 with
        | some p => p.line
        | none => uint32Sentinel
      column := match e.2.1 with
        | some p => p.column
        | none => uint32Sentinel
      node := e.2.2 })

/-- The `std::sort(fields.begin(), fields.end())` call of `convert_table`.
`std::sort` promises only a sorted permutation of its input and is not
stable; this definition fixes one contract-satisfying execution so that the
converters remain executable functions.  Entries with pairwise distinct
`(line, column)` positions — all entries of a freshly parsed table — are
ordered identically by every contract-satisfying execution, and both
readers share this single model choice, so no theorem depends on the order
this choice gives to entries with equal positions. -/
def sortFields (l : List FieldInfo) : List FieldInfo :=
  List.insertionSort fieldLe l

/-- Size bound used for termination of the recursive node conversion. -/
theorem node_lt_of_mem_sortFields {fi : FieldInfo} {fields : List TableField}
    (h : fi ∈ sortFields (decorateFields fields)) :
    sizeOf fi.node < 1 + sizeOf fields := by
  rw [sortFields, List.mem_insertionSort, decorateFields] at h
  obtain ⟨e, he, hfi⟩ := List.mem_map.1 h
  obtain ⟨k, p, n⟩ := e
  have hs := List.sizeOf_lt_of_mem he
  simp only [Prod.mk.sizeOf_spec] at hs
  have hn : fi.node = n := by rw [← hfi]
  rw [hn]
  omega

/-- Decimal digits of a natural number (used by all textual formatters). -/
def natRepr (n : Nat) : String := Nat.repr n

/-- Decimal rendering of a signed 64-bit integer, as `operator<<` prints it:
plain digits with a leading minus sign for negative values. -/
def decRepr (v : Int) : String :=
  if v < 0 then "-" ++ natRepr v.natAbs else natRepr v.natAbs

/-- Two-digit zero padding used by the external temporal formatter. -/
def pad2 (n : Nat) : String := if n < 10 then "0" ++ natRepr n else natRepr n

/-- Four-digit zero padding for years. -/
def pad4 (n : Nat) : String :=
  if n < 10 then "000" ++ natRepr n
  else if n < 100 then "00" ++ natRepr n
  else if n < 1000 then "0" ++ natRepr n
  else natRepr n

/-- Removal of trailing `'0'` characters from a digit sequence. -/
def stripTrailingZeros (s : List Char) : List Char :=
  (s.reverse.dropWhile (fun c => c = '0')).reverse

/-- Modelled from the spec (formatTemporal and the document grammar of the
external emitter, which both parsers stream dates through): the fractional
second part, printed only when nanoseconds are nonzero. -/
def nanoFrac (ns : Nat) : String :=
  if ns = 0 then ""
  else
    "." ++ (stripTrailingZeros
      ((List.replicate (9 - (natRepr ns).length) '0') ++ (natRepr ns).data)).asString

/-- Modelled from the spec: `YYYY-MM-DD` rendering of a date by the external
`operator<<` that `toml_parse_file.cpp` streams temporal nodes through. -/
def tomlDateStr (d : TDate) : String :=
  pad4 d.year ++ "-" ++ pad2 d.month ++ "-" ++ pad2 d.day

/-- Modelled from the spec: `HH:MM:SS[.frac]` rendering of a time. -/
def tomlTimeStr (t : TTime) : String :=
  pad2 t.hour ++ ":" ++ pad2 t.minute ++ ":" ++ pad2 t.second ++ nanoFrac t.nanosecond

/-- Modelled from the spec: offset rendering, `Z` for zero and `±HH:MM`
otherwise. -/
def offsetStr (off : Int) : String :=
  if off = 0 then "Z"
  else (if off < 0 then "-" else "+") ++ pad2 (off.natAbs / 60) ++ ":" ++ pad2 (off.natAbs % 60)

/-- Modelled from the spec: RFC-3339-like rendering of a datetime with its
optional offset. -/
def tomlDateTimeStr (d : TDate) (t : TTime) (off : Option Int) : String :=
  tomlDateStr d ++ "T" ++ tomlTimeStr t ++
    (match off with
     | none => ""
     | some o => offsetStr o)

/-- Seconds-with-nanoseconds value `t.second + t.nanosecond / 1e9` passed to
the MATLAB `datetime` constructor by the string parser. -/
def secondsWithNanos (t : TTime) : Dbl :=
  ⟨(t.second : Int) * 1000000000 + (t.nanosecond : Int), 1000000000⟩

namespace ParseFile

/-- The `convert_node` function of `toml_parse_file.cpp` (with the bodies of
`convert_table` and `convert_array` inlined at their call sites, exactly as
those functions read).  Tables: collect `FieldInfo` entries, sort them by
source position and build the struct in sorted order.  Arrays: homogeneous
integer/float/boolean arrays become typed vectors, anything else a cell
array of recursively converted elements.  Integers with a format flag become
a `{value, format}` struct with `hex` preferred over `oct` over `bin`.
Dates, times and datetimes are streamed to text (`ss << val->get()`). -/
def convert_node : TomlNode → MxArray
  | TomlNode.table fields =>
      MxArray.mxStruct ((sortFields (decorateFields fields)).attach.map
        (fun fi => (fi.1.key, convert_node fi.1.node)))
  | TomlNode.arr elems =>
      if elems.isEmpty then MxArray.mxCell []
      else if elems.all isIntegerNode then MxArray.mxInt64 (elems.map intValueOr0)
      else if elems.all isFloatNode then MxArray.mxDouble (elems.map fltValueOr0)
      else if elems.all isBooleanNode then MxArray.mxLogical (elems.map boolValueOrFalse)
      else MxArray.mxCell (elems.attach.map (fun e => convert_node e.1))
  | TomlNode.str s => MxArray.mxChar s
  | TomlNode.intg v hx oc bn =>
      if hx || oc || bn then
        MxArray.mxStruct
          [("value", MxArray.mxInt64 [v]),
           ("format", MxArray.mxChar (if hx then "hex" else if oc then "oct" else "bin"))]
      else MxArray.mxInt64 [v]
  | TomlNode.flt v => MxArray.mxDouble [v]
  | TomlNode.boolv b => MxArray.mxLogical [b]
  | TomlNode.date d => MxArray.mxChar (tomlDateStr d)
  | TomlNode.time t => MxArray.mxChar (tomlTimeStr t)
  | TomlNode.datetime d t off => MxArray.mxChar (tomlDateTimeStr d t off)
termination_by n => sizeOf n
decreasing_by
  · simp only [TomlNode.table.sizeOf_spec]
    exact node_lt_of_mem_sortFields fi.2
  · have hs := List.sizeOf_lt_of_mem e.2
    simp only [TomlNode.arr.sizeOf_spec]
    omega

/-- The `convert_table` entry point of `toml_parse_file.cpp` (the table case
of the conversion). -/
def convert_table (fields : List TableField) : MxArray :=
  convert_node (TomlNode.table fields)

/-- The `convert_array` function of `toml_parse_file.cpp` (the array case of
the conversion). -/
def convert_array (elems : List TomlNode) : MxArray :=
  convert_node (TomlNode.arr elems)

theorem convert_node_table (fields : List TableField) :
    convert_node (TomlNode.table fields) =
      MxArray.mxStruct ((sortFields (decorateFields fields)).map
        (fun fi => (fi.key, convert_node fi.node))) := by
  rw [convert_node.eq_def]
  dsimp only
  congr 1
  exact List.attach_map_val (sortFields (decorateFields fields)) (fun x => (x.key, convert_node x.node))

theorem convert_node_arr (elems : List TomlNode) :
    convert_node (TomlNode.arr elems) =
      (if elems.isEmpty then MxArray.mxCell []
       else if elems.all isIntegerNode then MxArray.mxInt64 (elems.map intValueOr0)
       else if elems.all isFloatNode then MxArray.mxDouble (elems.map fltValueOr0)
       else if elems.all isBooleanNode then MxArray.mxLogical (elems.map boolValueOrFalse)
       else MxArray.mxCell (elems.map convert_node)) := by
  rw [convert_node.eq_def]
  dsimp only
  congr 2
  congr 1
  congr 1
  congr 1
  exact List.attach_map_val elems (fun x => convert_node x)

theorem convert_node_str (s : String) :
    convert_node (TomlNode.str s) = MxArray.mxChar s := by
  rw [convert_node.eq_def]

theorem convert_node_intg (v : Int) (hx oc bn : Bool) :
    convert_node (TomlNode.intg v hx oc bn) =
      (if hx || oc || bn then
        MxArray.mxStruct
          [("value", MxArray.mxInt64 [v]),
           ("format", MxArray.mxChar (if hx then "hex" else if oc then "oct" else "bin"))]
       else MxArray.mxInt64 [v]) := by
  rw [convert_node.eq_def]

theorem convert_node_flt (v : FVal) :
    convert_node (TomlNode.flt v) = MxArray.mxDouble [v] := by
  rw [convert_node.eq_def]

theorem convert_node_boolv (b : Bool) :
    convert_node (TomlNode.boolv b) = MxArray.mxLogical [b] := by
  rw [convert_node.eq_def]

theorem convert_node_date (d : TDate) :
    convert_node (TomlNode.date d) = MxArray.mxChar (tomlDateStr d) := by
  rw [convert_node.eq_def]

theorem convert_node_time (t : TTime) :
    convert_node (TomlNode.time t) = MxArray.mxChar (tomlTimeStr t) := by
  rw [convert_node.eq_def]

theorem convert_node_datetime (d : TDate) (t : TTime) (off : Option Int) :
    convert_node (TomlNode.datetime d t off) = MxArray.mxChar (tomlDateTimeStr d t off) := by
  rw [convert_node.eq_def]

end ParseFile

namespace ParseString

/-- The `convert_node` function of `toml_parse_string.cpp` (bodies of its
`convert_table` and `convert_array` inlined; they are character-identical to
the file parser's).  It differs from the file parser in the scalar cases:
the format label of a flagged integer is checked in the order `bin`, `oct`,
`hex` (defaulting to `hex`); dates and times become MATLAB `datetime`
values (times on the default date 1970-01-01); a datetime with an offset
becomes a `{datetime, offset_minutes}` struct. -/
def convert_node : TomlNode → MxArray
  | TomlNode.table fields =>
      MxArray.mxStruct ((sortFields (decorateFields fields)).attach.map
        (fun fi => (fi.1.key, convert_node fi.1.node)))
  | TomlNode.arr elems =>
      if elems.isEmpty then MxArray.mxCell []
      else if elems.all isIntegerNode then MxArray.mxInt64 (elems.map intValueOr0)
      else if elems.all isFloatNode then MxArray.mxDouble (elems.map fltValueOr0)
      else if elems.all isBooleanNode then MxArray.mxLogical (elems.map boolValueOrFalse)
      else MxArray.mxCell (elems.attach.map (fun e => convert_node e.1))
  | TomlNode.str s => MxArray.mxChar s
  | TomlNode.intg v hx oc bn =>
      if hx || oc || bn then
        MxArray.mxStruct
          [("value", MxArray.mxInt64 [v]),
           ("format", MxArray.mxChar
              (if bn then "bin" else if oc then "oct" else if hx then "hex" else "hex"))]
      else MxArray.mxInt64 [v]
  | TomlNode.flt v => MxArray.mxDouble [v]
  | TomlNode.boolv b => MxArray.mxLogical [b]
  | TomlNode.date d => MxArray.mxDatetime d.year d.month d.day 0 0 (Dbl.ofInt 0)
  | TomlNode.time t => MxArray.mxDatetime 1970 1 1 t.hour t.minute (secondsWithNanos t)
  | TomlNode.datetime d t off =>
      match off with
      | some o =>
          MxArray.mxStruct
            [("datetime",
              MxArray.mxDatetime d.year d.month d.day t.hour t.minute (secondsWithNanos t)),
             ("offset_minutes", MxArray.mxDouble [FVal.fin (Dbl.ofInt o)])]
      | none => MxArray.mxDatetime d.year d.month d.day t.hour t.minute (secondsWithNanos t)
termination_by n => sizeOf n
decreasing_by
  · simp only [TomlNode.table.sizeOf_spec]
    exact node_lt_of_mem_sortFields fi.2
  · have hs := List.sizeOf_lt_of_mem e.2
    simp only [TomlNode.arr.sizeOf_spec]
    omega

/-- The `convert_table` entry point of `toml_parse_string.cpp`. -/
def convert_table (fields : List TableField) : MxArray :=
  convert_node (TomlNode.table fields)

/-- The `convert_array` function of `toml_parse_string.cpp`. -/
def convert_array (elems : List TomlNode) : MxArray :=
  convert_node (TomlNode.arr elems)

theorem convert_node_table_str (fields : List TableField) :
    convert_node (TomlNode.table fields) =
      MxArray.mxStruct ((sortFields (decorateFields fields)).map
        (fun fi => (fi.key, convert_node fi.node))) := by
  rw [convert_node.eq_def]
  dsimp only
  congr 1
  exact List.attach_map_val (sortFields (decorateFields fields))
    (fun x => (x.key, convert_node x.node))

theorem convert_node_arr_str (elems : List TomlNode) :
    convert_node (TomlNode.arr elems) =
      (if elems.isEmpty then MxArray.mxCell []
       else if elems.all isIntegerNode then MxArray.mxInt64 (elems.map intValueOr0)
       else if elems.all isFloatNode then MxArray.mxDouble (elems.map fltValueOr0)
       else if elems.all isBooleanNode then MxArray.mxLogical (elems.map boolValueOrFalse)
       else MxArray.mxCell (elems.map convert_node)) := by
  rw [convert_node.eq_def]
  dsimp only
  congr 2
  congr 1
  congr 1
  congr 1
  exact List.attach_map_val elems (fun x => convert_node x)

theorem convert_node_str_str (s : String) :
    convert_node (TomlNode.str s) = MxArray.mxChar s := by
  rw [convert_node.eq_def]

theorem convert_node_intg_str (v : Int) (hx oc bn : Bool) :
    convert_node (TomlNode.intg v hx oc bn) =
      (if hx || oc || bn then
        MxArray.mxStruct
          [("value", MxArray.mxInt64 [v]),
           ("format", MxArray.mxChar
              (if bn then "bin" else if oc then "oct" else if hx then "hex" else "hex"))]
       else MxArray.mxInt64 [v]) := by
  rw [convert_node.eq_def]

theorem convert_node_flt_str (v : FVal) :
    convert_node (TomlNode.flt v) = MxArray.mxDouble [v] := by
  rw [convert_node.eq_def]

theorem convert_node_boolv_str (b : Bool) :
    convert_node (TomlNode.boolv b) = MxArray.mxLogical [b] := by
  rw [convert_node.eq_def]

theorem convert_node_date_str (d : TDate) :
    convert_node (TomlNode.date d) =
      MxArray.mxDatetime d.year d.month d.day 0 0 (Dbl.ofInt 0) := by
  rw [convert_node.eq_def]

theorem convert_node_time_str (t : TTime) :
    convert_node (TomlNode.time t) =
      MxArray.mxDatetime 1970 1 1 t.hour t.minute (secondsWithNanos t) := by
  rw [convert_node.eq_def]

theorem convert_node_datetime_str (d : TDate) (t : TTime) (off : Option Int) :
    convert_node (TomlNode.datetime d t off) =
      (match off with
       | some o =>
          MxArray.mxStruct
            [("datetime",
              MxArray.mxDatetime d.year d.month d.day t.hour t.minute (secondsWithNanos t)),
             ("offset_minutes", MxArray.mxDouble [FVal.fin (Dbl.ofInt o)])]
       | none => MxArray.mxDatetime d.year d.month d.day t.hour t.minute (secondsWithNanos t)) := by
  rw [convert_node.eq_def]

end ParseString

/-- An error surfaced through `mexErrMsgIdAndTxt`: a category identifier and
a message.  Raising it aborts the MEX call, so a call that raises one never
also produces an output value; the `Except` result type of the entry-point
models makes that explicit. -/
structure MexError where
  errId : String
  errMsg : String
deriving DecidableEq

/-- The `mexFunction` of `toml_parse_file.cpp`, modelled from the point where
the external parser has run: its input is either the parsed root table or
the parse error message of a `toml::parse_error`.  A parse failure is fatal
and is surfaced as a single categorized error with no partial result. -/
def ParseFile.mexFunction (parsed : Except String (List TableField)) :
    Except MexError MxArray :=
  match parsed with
  | Except.ok fields => Except.ok (ParseFile.convert_table fields)
  | Except.error e =>
      Except.error ⟨"toml_parse_file:parseError", "TOML parse error: " ++ e⟩

/-- Concatenation of a list of strings in order (the effect of appending each
piece to one output stream). -/
def strJoin : List String → String
  | [] => ""
  | s :: rest => s ++ strJoin rest

/-- Separator-joined concatenation, for the external array formatter. -/
def strJoinSep (sep : String) : List String → String
  | [] => ""
  | [s] => s
  | s :: rest => s ++ sep ++ strJoinSep sep rest

/-- Digit character for values `0..15`, with uppercase letters, as
`std::uppercase` prints hex digits. -/
def digitCharUc (n : Nat) : Char :=
  if n < 10 then Char.ofNat (48 + n) else Char.ofNat (55 + n)

/-- The manual octal digit loop of `serialize_value`: while the value is
positive, prepend the digit `uval & 7` and shift by three bits.  The loop
runs at most once per bit, so a fuel of `n` is always sufficient. -/
def octLoopCore : Nat → Nat → List Char
  | 0, _ => []
  | fuel + 1, n => if n = 0 then [] else octLoopCore fuel (n >>> 3) ++ [digitCharUc (n &&& 7)]

/-- The manual binary digit loop of `serialize_value`: prepend `uval & 1`,
shift by one bit. -/
def binLoopCore : Nat → Nat → List Char
  | 0, _ => []
  | fuel + 1, n => if n = 0 then [] else binLoopCore fuel (n >>> 1) ++ [digitCharUc (n &&& 1)]

/-- Hexadecimal digits of an unsigned 64-bit value as `std::hex` together
with `std::uppercase` prints them (the stream conversion is specified by the
C++ standard; digits are extracted per 4-bit group). -/
def hexLoopCore : Nat → Nat → List Char
  | 0, _ => []
  | fuel + 1, n => if n = 0 then [] else hexLoopCore fuel (n >>> 4) ++ [digitCharUc (n &&& 15)]

/-- Digits of `n` in the given base obtained by repeated division, the
formulation used by the specification. -/
def divDigitsCore (base : Nat) : Nat → Nat → List Char
  | 0, _ => []
  | fuel + 1, n => if n = 0 then [] else divDigitsCore base fuel (n / base) ++ [digitCharUc (n % base)]

/-- The unsigned 64-bit reinterpretation of a signed 64-bit value, as the
stream insertion of a negative `int64_t` under `std::hex` uses. -/
def int64ToUInt64 (v : Int) : Nat := (v.emod (2 ^ 64)).toNat

/-- Hex rendering of an unsigned value: `0` prints as a single digit. -/
def hexUpperStr (u : Nat) : String :=
  if u = 0 then "0" else (hexLoopCore u u).asString

/-- The octal body of `serialize_value`: zero prints `0`; a negative value
prints `-` followed by the digits of its negation cast to `uint64_t`. -/
def octSignedStr (v : Int) : String :=
  if v = 0 then "0"
  else
    (if v < 0 then "-" else "") ++
      (octLoopCore (if v < 0 then ((-v).emod (2 ^ 64)).toNat else v.toNat)
        (if v < 0 then ((-v).emod (2 ^ 64)).toNat else v.toNat)).asString

/-- The binary body of `serialize_value`, with the same sign handling as the
octal one. -/
def binSignedStr (v : Int) : String :=
  if v = 0 then "0"
  else
    (if v < 0 then "-" else "") ++
      (binLoopCore (if v < 0 then ((-v).emod (2 ^ 64)).toNat else v.toNat)
        (if v < 0 then ((-v).emod (2 ^ 64)).toNat else v.toNat)).asString

/-- Decimal exponent of a positive finite double: the unique `e` with
`10 ^ e ≤ a < 10 ^ (e + 1)`, computed from decimal digit counts. -/
def decExp (a : Dbl) : Int :=
  if Dbl.leb ⟨1, 1⟩ a then ((natRepr a.floorInt.toNat).length - 1 : Nat)
  else
    let l : Nat := (natRepr (((a.den : Int)).fdiv a.num).toNat).length - 1
    if Dbl.leb ⟨1, 1⟩ (a.mulPow10 (l : Int)) then -(l : Int) else -((l : Int) + 1)

/-- Exponent suffix as `std::scientific` prints it: explicit sign and at
least two digits. -/
def expSuffix (e : Int) : String :=
  (if e < 0 then "-" else "+") ++ pad2 e.natAbs

/-- Scientific rendering with 12 significant digits followed by the
trailing-zero stripping that `serialize_value` performs on the mantissa
(`5.00000000000e-05` becomes `5e-05`). -/
def sciString (v : Dbl) : String :=
  let a := v.absD
  let e := decExp a
  let m0 := (a.mulPow10 (11 - e)).roundInt
  let m := if m0 = 10 ^ 12 then ((10 ^ 11 : Int), e + 1) else (m0, e)
  let ds := (natRepr m.1.toNat).data
  let frac := stripTrailingZeros (ds.drop 1)
  (if v.isNeg then "-" else "") ++ (ds.take 1).asString ++
    (if frac.isEmpty then "" else "." ++ frac.asString) ++ "e" ++ expSuffix m.2

/-- Fixed rendering with exactly one fractional digit
(`std::fixed << std::setprecision(1)`), applied only to integral values. -/
def fixed1String (v : Dbl) : String := decRepr v.floorInt ++ ".0"

/-- Default-notation rendering with 12 significant digits
(`std::setprecision(12)` without `std::fixed`), which like `%g` drops
trailing zeros; `serialize_value`'s explicit stripping is then a no-op. -/
def gen12String (v : Dbl) : String :=
  let a := v.absD
  let e := decExp a
  if e < -4 ∨ 12 ≤ e then sciString v
  else
    let m0 := (a.mulPow10 (11 - e)).roundInt
    let m := if m0 = 10 ^ 12 then ((10 ^ 11 : Int), e + 1) else (m0, e)
    let ds := (natRepr m.1.toNat).data
    if 0 ≤ m.2 then
      let frac := stripTrailingZeros (ds.drop (m.2.toNat + 1))
      (if v.isNeg then "-" else "") ++ (ds.take (m.2.toNat + 1)).asString ++
        (if frac.isEmpty then "" else "." ++ frac.asString)
    else
      let frac := stripTrailingZeros (List.replicate ((-m.2).toNat - 1) '0' ++ ds)
      (if v.isNeg then "-" else "") ++ "0." ++ frac.asString

/-- The float branch of `serialize_value` in `toml_write_string.cpp`:
`inf`/`-inf`/`nan` for the special values; scientific notation when
`0 < |v| < 1e-4` or `|v| >= 1e10`, with trailing mantissa zeros stripped;
one fractional digit for integral values below `1e15`; otherwise 12
significant digits with trailing zeros stripped. -/
def formatFloat : FVal → String
  | FVal.inf b => if b then "inf" else "-inf"
  | FVal.nan => "nan"
  | FVal.fin v =>
      let a := v.absD
      if Dbl.ltb ⟨0, 1⟩ a && (Dbl.ltb a ⟨1, 10000⟩ || Dbl.leb ⟨10000000000, 1⟩ a) then
        sciString v
      else if v.isIntegral && Dbl.ltb a ⟨1000000000000000, 1⟩ then
        fixed1String v
      else gen12String v

/-- The `escape_for_double_quotes` helper of `toml_write_string.cpp`. -/
def escapeChar (c : Char) : String :=
  if c = '\\' then "\\\\"
  else if c = '"' then "\\\""
  else if c = '\n' then "\\n"
  else if c = '\r' then "\\r"
  else if c = '\t' then "\\t"
  else String.singleton c

/-- Escapes backslash, double quote, newline, carriage return and tab. -/
def escape_for_double_quotes (s : String) : String :=
  strJoin (s.data.map escapeChar)

/-- Modelled from the spec (the document grammar of the external emitter):
default rendering of a value node by `operator<<`, used by `serialize_value`
through its temporary single-entry table (`tmp << table`, then everything
after `"= "` is kept).  Every integer handed to it by this writer carries no
format flags, so integers print as plain decimal digits; floats print in a
default notation that is never consulted by any claim. -/
def tomlValueToString : TomlNode → String
  | TomlNode.table fields =>
      "\x7b " ++ strJoinSep ", "
        (fields.attach.map (fun f => f.1.1 ++ " = " ++ tomlValueToString f.1.2.2)) ++ " \x7d"
  | TomlNode.arr elems =>
      "[ " ++ strJoinSep ", " (elems.attach.map (fun e => tomlValueToString e.1)) ++ " ]"
  | TomlNode.str s => "\"" ++ escape_for_double_quotes s ++ "\""
  | TomlNode.intg v _ _ _ => decRepr v
  | TomlNode.flt v =>
      match v with
      | FVal.nan => "nan"
      | FVal.inf b => if b then "inf" else "-inf"
      | FVal.fin q => if q.isIntegral then decRepr q.floorInt ++ ".0" else gen12String q
  | TomlNode.boolv b => if b then "true" else "false"
  | TomlNode.date d => tomlDateStr d
  | TomlNode.time t => tomlTimeStr t
  | TomlNode.datetime d t off => tomlDateTimeStr d t off
termination_by n => sizeOf n
decreasing_by
  · have hs : sizeOf f.1 < sizeOf fields := List.sizeOf_lt_of_mem f.2
    obtain ⟨f, hf⟩ := f
    obtain ⟨k, p, n⟩ := f
    simp only [Prod.mk.sizeOf_spec] at hs
    simp only [TomlNode.table.sizeOf_spec]
    omega
  · have hs : sizeOf e.1 < sizeOf elems := List.sizeOf_lt_of_mem e.2
    simp only [TomlNode.arr.sizeOf_spec]
    omega

namespace WriteString

/-- The `convert_numeric_array_to_toml` function of `toml_write_string.cpp`:
each element that is integral and passes the `INT64_MIN <= val <= INT64_MAX`
double comparison becomes a document integer, anything else a document
float.  Note that `INT64_MAX` is converted to `double` by the comparison and
rounds up to `2^63`, so the effective upper bound is `2^63`; `INT64_MIN`
converts exactly.  NaN fails the `val == floor(val)` test and infinities
fail a bound, so specials stay floats. -/
def convert_numeric_array_to_toml (l : List FVal) : List TomlNode :=
  l.map (fun v =>
    match v with
    | FVal.fin q =>
        if q.isIntegral && Dbl.leb ⟨-(2 ^ 63), 1⟩ q && Dbl.leb q ⟨2 ^ 63, 1⟩ then
          TomlNode.intg q.truncInt false false false
        else TomlNode.flt v
    | _ => TomlNode.flt v)

/-- First element of a double array as an integer (`(int)mxGetScalar`). -/
def mxGetScalarInt : MxArray → Int
  | MxArray.mxDouble (FVal.fin q :: _) => q.truncInt
  | _ => 0

/-- Nanosecond part `(int)((s - sec) * 1e9)` of a seconds value. -/
def fracNanos (s : Dbl) : Int :=
  ((s.num - s.truncInt * (s.den : Int)) * 1000000000).tdiv (s.den : Int)

/-- Which node kinds `convert_cell_to_array` of `toml_write_string.cpp`
pushes into the array: tables, arrays, strings, integers, floats and
booleans; date/time/datetime values fall into its final `else` and are
dropped. -/
def keepNodeInArray : TomlNode → Bool
  | TomlNode.table _ => true
  | TomlNode.arr _ => true
  | TomlNode.str _ => true
  | TomlNode.intg _ _ _ _ => true
  | TomlNode.flt _ => true
  | TomlNode.boolv _ => true
  | TomlNode.date _ => false
  | TomlNode.time _ => false
  | TomlNode.datetime _ _ _ => false

/-- The `convert_mx_to_node` function of `toml_write_string.cpp` (with
`convert_cell_to_array` inlined in the cell case).  Empty inputs convert to
nothing.  A struct converts only when it is an offset-datetime sentinel
(`datetime` of class datetime plus `offset_minutes` double); every other
struct is left to the recursive serializer.  A MATLAB datetime becomes a
date (all time components zero), a time (date 1970-01-01) or a naive
datetime.  Numeric data follows the integral-and-in-range rule of
`convert_numeric_array_to_toml`. -/
def convert_mx_to_node (mx : MxArray) : Option TomlNode :=
  if mxIsEmpty mx then none
  else match mx with
  | MxArray.mxStruct _ =>
      if mxGetNumberOfFields mx = 2 then
        match mxGetField mx "datetime", mxGetField mx "offset_minutes" with
        | some dtf, some offf =>
            if mxIsDatetimeB dtf && mxIsDoubleB offf then
              match dtf with
              | MxArray.mxDatetime y mo dy hr mi s =>
                  some (TomlNode.datetime ⟨y, mo, dy⟩
                    ⟨hr, mi, s.truncInt.toNat, (fracNanos s).toNat⟩
                    (some ((mxGetScalarInt offf).tdiv 60 * 60 + (mxGetScalarInt offf).tmod 60)))
              | _ => none
            else none
        | _, _ => none
      else none
  | MxArray.mxCell elems =>
      some (TomlNode.arr ((elems.attach.map (fun e =>
        match convert_mx_to_node e.1 with
        | some nd => if keepNodeInArray nd then some nd else none
        | none => none)).filterMap id))
  | MxArray.mxChar s => some (TomlNode.str s)
  | MxArray.mxDatetime y mo dy hr mi s =>
      if hr = 0 ∧ mi = 0 ∧ s.num = 0 then some (TomlNode.date ⟨y, mo, dy⟩)
      else if y = 1970 ∧ mo = 1 ∧ dy = 1 then
        some (TomlNode.time ⟨hr, mi, s.truncInt.toNat, (fracNanos s).toNat⟩)
      else
        some (TomlNode.datetime ⟨y, mo, dy⟩ ⟨hr, mi, s.truncInt.toNat, (fracNanos s).toNat⟩ none)
  | MxArray.mxLogical l =>
      match l with
      | [b] => some (TomlNode.boolv b)
      | _ => some (TomlNode.arr (l.map TomlNode.boolv))
  | MxArray.mxInt64 l =>
      match l with
      | [v] => some (TomlNode.intg v false false false)
      | _ => some (TomlNode.arr (l.map (fun v => TomlNode.intg v false false false)))
  | MxArray.mxDouble l =>
      match l with
      | [v] =>
          some (match v with
            | FVal.fin q =>
                if q.isIntegral && Dbl.leb ⟨-(2 ^ 63), 1⟩ q && Dbl.leb q ⟨2 ^ 63, 1⟩ then
                  TomlNode.intg q.truncInt false false false
                else TomlNode.flt v
            | _ => TomlNode.flt v)
      | _ => some (TomlNode.arr (convert_numeric_array_to_toml l))
termination_by sizeOf mx
decreasing_by
  have hs : sizeOf e.1 < sizeOf elems := List.sizeOf_lt_of_mem e.2
  simp only [MxArray.mxCell.sizeOf_spec]
  omega

/-- The repeated two-field test of `toml_write_string.cpp` for a formatted
integer sentinel: exactly two fields, a field `value` that is int64 data and
a field `format` that is char data.  The format string itself is not
inspected by this test. -/
def isFormattedIntStructB (mx : MxArray) : Bool :=
  mxIsStructB mx && mxGetNumberOfFields mx = 2 &&
    (match mxGetField mx "value", mxGetField mx "format" with
     | some vf, some ff => mxIsInt64B vf && mxIsCharB ff
     | _, _ => false)

/-- The repeated two-field test for an offset-datetime sentinel: exactly two
fields, `datetime` of class datetime and `offset_minutes` of double data. -/
def isOffsetDatetimeStructB (mx : MxArray) : Bool :=
  mxIsStructB mx && mxGetNumberOfFields mx = 2 &&
    (match mxGetField mx "datetime", mxGetField mx "offset_minutes" with
     | some df, some of2 => mxIsDatetimeB df && mxIsDoubleB of2
     | _, _ => false)

/-- The `value` payload of a formatted integer sentinel
(`*(int64_t*)mxGetData(value_field)`). -/
def getFmtValue (mx : MxArray) : Int :=
  match mxGetField mx "value" with
  | some (MxArray.mxInt64 (v :: _)) => v
  | _ => 0

/-- The `format` payload of a formatted integer sentinel. -/
def getFmtString (mx : MxArray) : String :=
  match mxGetField mx "format" with
  | some (MxArray.mxChar s) => s
  | _ => ""

/-- The tail of `serialize_value` after the formatted-integer special case:
convert the value to a document node, quote strings (triple quotes when a
newline is present), format floats inline, and stream every other supported
node kind through a temporary table, which yields the external default
rendering of the value.  Unsupported kinds (only tables can occur, and the
converter never produces one here) emit nothing. -/
def serialize_value_rest (mx : MxArray) : String :=
  match convert_mx_to_node mx with
  | none => ""
  | some nd =>
      match nd with
      | TomlNode.str v =>
          if v.data.contains '\n' then "\"\"\"\n" ++ v ++ "\"\"\""
          else "\"" ++ escape_for_double_quotes v ++ "\""
      | TomlNode.flt fv => formatFloat fv
      | TomlNode.table _ => ""
      | other => tomlValueToString other

/-- The `serialize_value` function of `toml_write_string.cpp`.  A struct that
passes the two-field `value`/`format` test is emitted in the base indicated
by its format string (`0x` with uppercase hex digits, `0o` and `0b` with
manually extracted digits and a sign between prefix and digits for negative
values); an unrecognized format string falls through to the generic path. -/
def serialize_value (mx : MxArray) : String :=
  if isFormattedIntStructB mx then
    if getFmtString mx = "hex" then "0x" ++ hexUpperStr (int64ToUInt64 (getFmtValue mx))
    else if getFmtString mx = "oct" then "0o" ++ octSignedStr (getFmtValue mx)
    else if getFmtString mx = "bin" then "0b" ++ binSignedStr (getFmtValue mx)
    else serialize_value_rest mx
  else serialize_value_rest mx

/-- The dotted path `prefix.empty() ? fname : prefix + "." + fname`. -/
def joinPath (pfx name : String) : String :=
  if pfx = "" then name else pfx ++ "." ++ name

/-- The pass-3 (and pass-1 deferral) test of `serialize_struct_recursive`:
a nonempty cell array whose elements are all structs. -/
def isCellOfStructsB (fv : MxArray) : Bool :=
  mxIsCellB fv && (cellElems fv).all mxIsStructB && decide (0 < (cellElems fv).length)

/-- The pass-1 skip condition of `serialize_struct_recursive`: empty values,
structs other than the two sentinel shapes (they go to pass 2), and
nonempty cells of structs (they go to pass 3) are not emitted as
assignments. -/
def pass1SkipB (fv : MxArray) : Bool :=
  mxIsEmpty fv ||
    (mxIsStructB fv && !isFormattedIntStructB fv && !isOffsetDatetimeStructB fv) ||
    isCellOfStructsB fv

/-- The pass-2 take condition of `serialize_struct_recursive`: structs that
are neither formatted-integer nor offset-datetime sentinels become nested
table sections. -/
def pass2TakeB (fv : MxArray) : Bool :=
  mxIsStructB fv && !isFormattedIntStructB fv && !isOffsetDatetimeStructB fv

/-- Positivity of the size of any host value (every constructor counts). -/
theorem mxarray_sizeOf_pos (mx : MxArray) : 1 ≤ sizeOf mx := by
  cases mx <;> simp only [MxArray.mxStruct.sizeOf_spec, MxArray.mxCell.sizeOf_spec,
    MxArray.mxChar.sizeOf_spec, MxArray.mxLogical.sizeOf_spec, MxArray.mxInt64.sizeOf_spec,
    MxArray.mxDouble.sizeOf_spec, MxArray.mxDatetime.sizeOf_spec] <;> omega

/-- Size bound for the fields of a struct, used for termination. -/
theorem sizeOf_snd_lt_of_mem_structFields {p : String × MxArray} {mx : MxArray}
    (h : p ∈ structFields mx) : sizeOf p.2 < sizeOf mx := by
  cases mx
  case mxStruct fields =>
    have hs : sizeOf p < sizeOf fields := List.sizeOf_lt_of_mem h
    obtain ⟨a, b⟩ := p
    simp only [Prod.mk.sizeOf_spec] at hs
    simp only [MxArray.mxStruct.sizeOf_spec]
    omega
  all_goals simp [structFields] at h

/-- Size bound for the cell elements of a struct field, used for
termination. -/
theorem sizeOf_cellElems_lt_of_mem_structFields {p : String × MxArray} {mx : MxArray}
    (h : p ∈ structFields mx) : sizeOf (cellElems p.2) < sizeOf mx := by
  have h1 := sizeOf_snd_lt_of_mem_structFields h
  have h2 := mxarray_sizeOf_pos p.2
  cases hp : p.2 <;> rw [hp] at h1 h2 <;>
    simp only [cellElems, List.nil.sizeOf_spec, MxArray.mxCell.sizeOf_spec] at * <;> omega

mutual

/-- The `serialize_struct_recursive` function of `toml_write_string.cpp`:
three passes over the fields in declaration order, appended to one stream —
assignments for pass-1 fields, then a `[path]` section plus recursion for
every plain struct, then `[[path]]` blocks for every nonempty cell of
structs. -/
def serialize_struct_recursive (mx : MxArray) (pfx : String) : String :=
  strJoin ((structFields mx).map (fun f =>
    if pass1SkipB f.2 then "" else f.1 ++ " = " ++ serialize_value f.2 ++ "\n")) ++
  strJoin ((structFields mx).attach.map (fun f =>
    if pass2TakeB f.1.2 then
      "\n[" ++ joinPath pfx f.1.1 ++ "]\n" ++ serialize_struct_recursive f.1.2 (joinPath pfx f.1.1)
    else "")) ++
  strJoin ((structFields mx).attach.map (fun f =>
    if isCellOfStructsB f.1.2 then arrayOfTablesBlocks (cellElems f.1.2) (joinPath pfx f.1.1)
    else ""))
termination_by sizeOf mx
decreasing_by
  · exact sizeOf_snd_lt_of_mem_structFields f.2
  · exact sizeOf_cellElems_lt_of_mem_structFields f.2

/-- The pass-3 inner loop: one `[[path]]` header per element, each followed
by the recursive serialization of that element. -/
def arrayOfTablesBlocks (elems : List MxArray) (path : String) : String :=
  match elems with
  | [] => ""
  | e :: rest =>
      "\n[[" ++ path ++ "]]\n" ++ serialize_struct_recursive e path ++ arrayOfTablesBlocks rest path
termination_by sizeOf elems
decreasing_by
  · simp only [List.cons.sizeOf_spec]
    omega
  · simp only [List.cons.sizeOf_spec]
    omega

end

end WriteString

namespace WriteFile

/-- The `convert_numeric_array_to_toml` function of `toml_write_file.cpp`
(same integral-and-in-range rule as the string writer's copy; the effective
upper bound is `2^63` because `INT64_MAX` rounds up when converted to
`double` for the comparison). -/
def convert_numeric_array_to_toml (l : List FVal) : List TomlNode :=
  l.map (fun v =>
    match v with
    | FVal.fin q =>
        if q.isIntegral && Dbl.leb ⟨-(2 ^ 63), 1⟩ q && Dbl.leb q ⟨2 ^ 63, 1⟩ then
          TomlNode.intg q.truncInt false false false
        else TomlNode.flt v
    | _ => TomlNode.flt v)

mutual

/-- The `convert_mx_to_node` function of `toml_write_file.cpp`.  Unlike the
string writer it converts structs recursively into tables, and it has no
branch for int64 data or MATLAB datetime values: both fall through to the
final `return nullptr` and are therefore skipped by the callers. -/
def convert_mx_to_node (mx : MxArray) : Option TomlNode :=
  if mxIsEmpty mx then none
  else match mx with
  | MxArray.mxStruct fields => some (TomlNode.table (convert_struct_to_table fields))
  | MxArray.mxCell elems => some (TomlNode.arr (convert_cell_to_array elems))
  | MxArray.mxChar s => some (TomlNode.str s)
  | MxArray.mxLogical l =>
      match l with
      | [b] => some (TomlNode.boolv b)
      | _ => some (TomlNode.arr (l.map TomlNode.boolv))
  | MxArray.mxDouble l =>
      match l with
      | [v] =>
          some (match v with
            | FVal.fin q =>
                if q.isIntegral && Dbl.leb ⟨-(2 ^ 63), 1⟩ q && Dbl.leb q ⟨2 ^ 63, 1⟩ then
                  TomlNode.intg q.truncInt false false false
                else TomlNode.flt v
            | _ => TomlNode.flt v)
      | _ => some (TomlNode.arr (convert_numeric_array_to_toml l))
  | MxArray.mxInt64 _ => none
  | MxArray.mxDatetime _ _ _ _ _ _ => none
termination_by sizeOf mx
decreasing_by
  · simp only [MxArray.mxStruct.sizeOf_spec]
    omega
  · simp only [MxArray.mxCell.sizeOf_spec]
    omega

/-- The `convert_struct_to_table` function of `toml_write_file.cpp`: fields
whose value is empty or has no conversion are skipped silently; every
converted field is inserted into the table in field order (MATLAB struct
field names are unique, so `toml::table::insert` never meets an existing
key and the table receives exactly the converted fields). -/
def convert_struct_to_table (fields : List (String × MxArray)) : List TableField :=
  match fields with
  | [] => []
  | (k, v) :: rest =>
      if mxIsEmpty v then convert_struct_to_table rest
      else
        match convert_mx_to_node v with
        | some nd => (k, (none : Option SrcPos), nd) :: convert_struct_to_table rest
        | none => convert_struct_to_table rest
termination_by sizeOf fields
decreasing_by
  all_goals simp only [List.cons.sizeOf_spec, Prod.mk.sizeOf_spec]
  all_goals omega

/-- The `convert_cell_to_array` function of `toml_write_file.cpp`: empty or
unconvertible elements are skipped, every produced node kind (including
dates, times and datetimes, unlike the string writer) is pushed. -/
def convert_cell_to_array (elems : List MxArray) : List TomlNode :=
  match elems with
  | [] => []
  | e :: rest =>
      if mxIsEmpty e then convert_cell_to_array rest
      else
        match convert_mx_to_node e with
        | some nd => nd :: convert_cell_to_array rest
        | none => convert_cell_to_array rest
termination_by sizeOf elems
decreasing_by
  all_goals simp only [List.cons.sizeOf_spec, Prod.mk.sizeOf_spec]
  all_goals omega

end

/-- The `mexFunction` of `toml_write_file.cpp`, modelled from the point
where the argument checks have passed: the input struct is converted to a
document table, and the table is streamed to the file only when the output
stream opens; a failed open is fatal and surfaces a single categorized
error, with no document produced.  The conversion itself cannot fail. -/
def mexFunction (data : List (String × MxArray)) (fileOpens : Bool) :
    Except MexError TomlNode :=
  if fileOpens then Except.ok (TomlNode.table (convert_struct_to_table data))
  else Except.error ⟨"toml_write_file:error", "Could not open file for writing"⟩

end WriteFile

namespace WriteString

/-- Unfolding of the serializer with the membership bookkeeping of the
recursion removed: the three passes as plain maps over the field list. -/
theorem serialize_struct_recursive_eq (mx : MxArray) (pfx : String) :
    serialize_struct_recursive mx pfx =
      strJoin ((structFields mx).map (fun f =>
        if pass1SkipB f.2 then "" else f.1 ++ " = " ++ serialize_value f.2 ++ "\n")) ++
      strJoin ((structFields mx).map (fun f =>
        if pass2TakeB f.2 then
          "\n[" ++ joinPath pfx f.1 ++ "]\n" ++ serialize_struct_recursive f.2 (joinPath pfx f.1)
        else "")) ++
      strJoin ((structFields mx).map (fun f =>
        if isCellOfStructsB f.2 then arrayOfTablesBlocks (cellElems f.2) (joinPath pfx f.1)
        else "")) := by
  rw [serialize_struct_recursive.eq_def]
  congr 1
  · congr 1
    congr 1
    exact List.attach_map_val (structFields mx) (fun x =>
      if pass2TakeB x.2 then
        "\n[" ++ joinPath pfx x.1 ++ "]\n" ++ serialize_struct_recursive x.2 (joinPath pfx x.1)
      else "")
  · congr 1
    exact List.attach_map_val (structFields mx) (fun x =>
      if isCellOfStructsB x.2 then arrayOfTablesBlocks (cellElems x.2) (joinPath pfx x.1)
      else "")

end WriteString

/-- The shift-and-mask octal loop extracts the same digits as repeated
division by 8. -/
theorem octLoopCore_eq_divDigits (fuel n : Nat) :
    octLoopCore fuel n = divDigitsCore 8 fuel n := by
  induction fuel generalizing n with
  | zero => rfl
  | succ fuel ih =>
    rw [octLoopCore, divDigitsCore, ih]
    have h1 : n &&& 7 = n % 8 := by
      have := Nat.and_pow_two_sub_one_eq_mod n 3
      norm_num at this
      exact this
    have h2 : n >>> 3 = n / 8 := by
      rw [Nat.shiftRight_eq_div_pow]
    rw [h1, h2]

/-- The shift-and-mask binary loop extracts the same digits as repeated
division by 2. -/
theorem binLoopCore_eq_divDigits (fuel n : Nat) :
    binLoopCore fuel n = divDigitsCore 2 fuel n := by
  induction fuel generalizing n with
  | zero => rfl
  | succ fuel ih =>
    rw [binLoopCore, divDigitsCore, ih]
    have h1 : n &&& 1 = n % 2 := by
      simp
    have h2 : n >>> 1 = n / 2 := by
      rw [Nat.shiftRight_eq_div_pow]
    rw [h1, h2]

/-- The nibble-wise hex extraction equals repeated division by 16. -/
theorem hexLoopCore_eq_divDigits (fuel n : Nat) :
    hexLoopCore fuel n = divDigitsCore 16 fuel n := by
  induction fuel generalizing n with
  | zero => rfl
  | succ fuel ih =>
    rw [hexLoopCore, divDigitsCore, ih]
    have h1 : n &&& 15 = n % 16 := by
      have := Nat.and_pow_two_sub_one_eq_mod n 4
      norm_num at this
      exact this
    have h2 : n >>> 4 = n / 16 := by
      rw [Nat.shiftRight_eq_div_pow]
    rw [h1, h2]

/-- For a value in the signed 64-bit range, the magnitude computed by the
code (`v = -v` then cast to `uint64_t`, with wrap-around at `INT64_MIN`)
equals the mathematical absolute value. -/
theorem negWrap_eq_natAbs (v : Int) (h1 : -(2 ^ 63) ≤ v) (h2 : v < 2 ^ 63) :
    (if v < 0 then ((-v).emod (2 ^ 64)).toNat else v.toNat) = v.natAbs := by
  by_cases hv : v < 0
  · rw [if_pos hv]
    have hnn : (0 : Int) ≤ -v := by omega
    have hlt : -v < 2 ^ 64 := by omega
    have hm : (-v).emod (2 ^ 64) = -v := Int.emod_eq_of_lt hnn hlt
    rw [hm]
    omega
  · rw [if_neg hv]
    omega

/-- The formatted-integer sentinel `{value = v, format = fmt}` as the parser
produces it and the writer consumes it. -/
def mkFmtStruct (v : Int) (fmt : String) : MxArray :=
  MxArray.mxStruct [("value", MxArray.mxInt64 [v]), ("format", MxArray.mxChar fmt)]

/-- Hexadecimal digits by repeated division by 16, zero as a single digit:
the specification's description of the hex formatter. -/
def specHexDigits (u : Nat) : String :=
  if u = 0 then "0" else (divDigitsCore 16 u u).asString

/-- Equality of the hex stream rendering with its repeated-division
description. -/
theorem hexUpperStr_eq_spec (u : Nat) : hexUpperStr u = specHexDigits u := by
  rw [hexUpperStr, specHexDigits, hexLoopCore_eq_divDigits]

/-- The octal body agrees with the specification's sign-and-magnitude
repeated-division description on the whole signed 64-bit range (including
`INT64_MIN`, whose wrap-around negation is its own magnitude). -/
theorem octSignedStr_eq_spec (v : Int) (h1 : -(2 ^ 63) ≤ v) (h2 : v < 2 ^ 63) :
    octSignedStr v =
      if v = 0 then "0"
      else (if v < 0 then "-" else "") ++ (divDigitsCore 8 v.natAbs v.natAbs).asString := by
  rw [octSignedStr]
  by_cases hv : v = 0
  · rw [if_pos hv, if_pos hv]
  · rw [if_neg hv, if_neg hv, negWrap_eq_natAbs v h1 h2, octLoopCore_eq_divDigits]

/-- The binary body agrees with its repeated-division description. -/
theorem binSignedStr_eq_spec (v : Int) (h1 : -(2 ^ 63) ≤ v) (h2 : v < 2 ^ 63) :
    binSignedStr v =
      if v = 0 then "0"
      else (if v < 0 then "-" else "") ++ (divDigitsCore 2 v.natAbs v.natAbs).asString := by
  rw [binSignedStr]
  by_cases hv : v = 0
  · rw [if_pos hv, if_pos hv]
  · rw [if_neg hv, if_neg hv, negWrap_eq_natAbs v h1 h2, binLoopCore_eq_divDigits]

/-- C5: for every signed 64-bit value, the writer's integer formatting
emits plain decimal digits for untagged integers; `0x` plus the uppercase
hex digits of the value for the `hex` tag (a negative value streams as its
unsigned 64-bit two's-complement digits, which is what `std::hex` does with
an `int64_t`); `0o` plus digits obtained by repeated division by 8 for the
`oct` tag, with a `-` between prefix and digits and the magnitude's digits
for negative values; `0b` plus repeated-division-by-2 digits with the same
negative handling for the `bin` tag; and zero renders as a single `0` digit
in all non-decimal bases (`0x0`, `0o0`, `0b0`). -/
theorem c5_integer_formatting (v : Int) (h : -(2 ^ 63) ≤ v ∧ v < 2 ^ 63) :
    WriteString.serialize_value (mkFmtStruct v "hex") = "0x" ++ specHexDigits (int64ToUInt64 v) ∧
    WriteString.serialize_value (mkFmtStruct v "oct") =
      ("0o" ++ (if v = 0 then "0"
        else (if v < 0 then "-" else "") ++ (divDigitsCore 8 v.natAbs v.natAbs).asString)) ∧
    WriteString.serialize_value (mkFmtStruct v "bin") =
      ("0b" ++ (if v = 0 then "0"
        else (if v < 0 then "-" else "") ++ (divDigitsCore 2 v.natAbs v.natAbs).asString)) ∧
    WriteString.serialize_value (MxArray.mxInt64 [v]) = decRepr v := by
  obtain ⟨ha, hb⟩ := h
  refine ⟨?_, ?_, ?_, ?_⟩
  · simp only [WriteString.serialize_value]
    have h1 : WriteString.isFormattedIntStructB (mkFmtStruct v "hex") = true := rfl
    have h2 : WriteString.getFmtString (mkFmtStruct v "hex") = "hex" := rfl
    have h3 : WriteString.getFmtValue (mkFmtStruct v "hex") = v := rfl
    rw [h1, h2, h3]
    simp only [if_true, if_pos rfl]
    rw [hexUpperStr_eq_spec]
  · simp only [WriteString.serialize_value]
    have h1 : WriteString.isFormattedIntStructB (mkFmtStruct v "oct") = true := rfl
    have h2 : WriteString.getFmtString (mkFmtStruct v "oct") = "oct" := rfl
    have h3 : WriteString.getFmtValue (mkFmtStruct v "oct") = v := rfl
    rw [h1, h2, h3]
    simp only [if_true, String.reduceEq, if_false, if_pos rfl]
    rw [octSignedStr_eq_spec v ha hb]
  · simp only [WriteString.serialize_value]
    have h1 : WriteString.isFormattedIntStructB (mkFmtStruct v "bin") = true := rfl
    have h2 : WriteString.getFmtString (mkFmtStruct v "bin") = "bin" := rfl
    have h3 : WriteString.getFmtValue (mkFmtStruct v "bin") = v := rfl
    rw [h1, h2, h3]
    simp only [if_true, String.reduceEq, if_false, if_pos rfl]
    rw [binSignedStr_eq_spec v ha hb]
  · have h1 : WriteString.isFormattedIntStructB (MxArray.mxInt64 [v]) = false := rfl
    have hc : WriteString.convert_mx_to_node (MxArray.mxInt64 [v]) =
        some (TomlNode.intg v false false false) := by
      rw [WriteString.convert_mx_to_node.eq_def]
      rfl
    have ht : tomlValueToString (TomlNode.intg v false false false) = decRepr v := by
      rw [tomlValueToString.eq_def]
    simp only [WriteString.serialize_value, h1, Bool.false_eq_true, if_false,
      WriteString.serialize_value_rest, hc, ht]

/-- Witness for C5 at the concrete input `-10` with the `oct` tag. -/
theorem c5_integer_formatting_witness :
    (-(2 ^ 63) ≤ (-10 : Int) ∧ (-10 : Int) < 2 ^ 63) ∧
    WriteString.serialize_value (mkFmtStruct (-10) "oct") =
      ("0o" ++ (if (-10 : Int) = 0 then "0"
        else (if (-10 : Int) < 0 then "-" else "") ++
          (divDigitsCore 8 (-10 : Int).natAbs (-10 : Int).natAbs).asString)) :=
  ⟨by decide, (c5_integer_formatting (-10) (by decide)).2.1⟩

/-- C6: the writer's float formatting renders NaN exactly as `nan`,
positive infinity as `inf` and negative infinity as `-inf`; `0.00005`
renders in scientific form (`5e-05`) while `0.0001` does not (`0.0001`);
the finite integral value `3.0` renders with exactly one fractional digit
(`3.0`, not `3`); and `1e12` renders in scientific form (`1e+12`) under the
`1e10` threshold.  The last conjunct checks the scientific case through
`serialize_value` itself (an integral host double such as `3.0` is turned
into a document integer before the float branch is consulted, so the
one-fractional-digit case is stated on the float formatter `formatFloat`,
the embedding of that branch). -/
theorem c6_float_formatting :
    formatFloat FVal.nan = "nan" ∧
    formatFloat (FVal.inf true) = "inf" ∧
    formatFloat (FVal.inf false) = "-inf" ∧
    formatFloat (FVal.fin ⟨1, 20000⟩) = "5e-05" ∧
    formatFloat (FVal.fin ⟨1, 10000⟩) = "0.0001" ∧
    formatFloat (FVal.fin ⟨3, 1⟩) = "3.0" ∧
    formatFloat (FVal.fin ⟨1000000000000, 1⟩) = "1e+12" ∧
    WriteString.serialize_value (MxArray.mxDouble [FVal.fin ⟨1, 20000⟩]) = "5e-05" := by
  refine ⟨by decide, by decide, by decide, by decide, by decide, by decide, by decide, ?_⟩
  have h1 : WriteString.isFormattedIntStructB (MxArray.mxDouble [FVal.fin ⟨1, 20000⟩]) = false :=
    rfl
  have hc : WriteString.convert_mx_to_node (MxArray.mxDouble [FVal.fin ⟨1, 20000⟩]) =
      some (TomlNode.flt (FVal.fin ⟨1, 20000⟩)) := by
    rw [WriteString.convert_mx_to_node.eq_def]
    rfl
  simp only [WriteString.serialize_value, h1, Bool.false_eq_true, if_false,
    WriteString.serialize_value_rest, hc]
  decide

/-- Int64 data is exactly the `mxInt64` constructor. -/
theorem mxIsInt64B_iff (mx : MxArray) : mxIsInt64B mx = true ↔ ∃ l, mx = MxArray.mxInt64 l := by
  cases mx <;> simp [mxIsInt64B]

/-- Char data is exactly the `mxChar` constructor. -/
theorem mxIsCharB_iff (mx : MxArray) : mxIsCharB mx = true ↔ ∃ s, mx = MxArray.mxChar s := by
  cases mx <;> simp [mxIsCharB]

/-- The sentinel classification the claim describes (written from the
specification's words, for comparison with the code's classification): two
fields `value` (int64 data) and `format` (text equal to `hex`, `oct` or
`bin`). -/
def specIsFormattedInteger (mx : MxArray) : Prop :=
  mxIsStructB mx = true ∧ mxGetNumberOfFields mx = 2 ∧
    (∃ vl, mxGetField mx "value" = some (MxArray.mxInt64 vl)) ∧
    (∃ s, mxGetField mx "format" = some (MxArray.mxChar s) ∧
      (s = "hex" ∨ s = "oct" ∨ s = "bin"))

/-- Counterexample to C4: the record `{value = 10, format = "dec"}` is
classified as a formatted-integer sentinel by the writer even though its
format text is none of `hex`, `oct`, `bin` — the code never inspects the
format string during classification, so the claimed "if and only if" fails. -/
theorem c4_counterexample :
    WriteString.isFormattedIntStructB (mkFmtStruct 10 "dec") = true ∧
    ¬ specIsFormattedInteger (mkFmtStruct 10 "dec") := by
  constructor
  · rfl
  · rintro ⟨-, -, -, s, hs, hor⟩
    have h1 : mxGetField (mkFmtStruct 10 "dec") "format" = some (MxArray.mxChar "dec") := rfl
    rw [h1] at hs
    have h2 : "dec" = s := by
      have := Option.some.inj hs
      exact (MxArray.mxChar.injEq _ _).mp this
    rw [← h2] at hor
    rcases hor with h | h | h <;> simp at h

/-- C4 (amended): the writer classifies a record as a formatted-integer
sentinel if and only if it is a struct with exactly two fields named
`value` (int64 data) and `format` (char data) — the format text itself is
not checked during classification; and the sentinel `{value = 10,
format = "hex"}` is emitted as the scalar assignment `key = 0xA` with no
`[key]` section header. -/
theorem c4_formatted_integer_sentinel :
    (∀ mx, WriteString.isFormattedIntStructB mx = true ↔
      (mxIsStructB mx = true ∧ mxGetNumberOfFields mx = 2 ∧
        (∃ vl, mxGetField mx "value" = some (MxArray.mxInt64 vl)) ∧
        (∃ s, mxGetField mx "format" = some (MxArray.mxChar s)))) ∧
    WriteString.serialize_struct_recursive
      (MxArray.mxStruct [("key", mkFmtStruct 10 "hex")]) "" = "key = 0xA\n" := by
  constructor
  · intro mx
    rw [WriteString.isFormattedIntStructB]
    cases hv : mxGetField mx "value" with
    | none => simp [hv]
    | some vf =>
      cases hf : mxGetField mx "format" with
      | none => simp [hv, hf]
      | some ff =>
        simp only [hv, hf, Bool.and_eq_true, decide_eq_true_eq]
        constructor
        · rintro ⟨⟨h1, h2⟩, h3, h4⟩
          rw [mxIsInt64B_iff] at h3
          rw [mxIsCharB_iff] at h4
          obtain ⟨l, rfl⟩ := h3
          obtain ⟨s, rfl⟩ := h4
          exact ⟨h1, h2, ⟨l, rfl⟩, ⟨s, rfl⟩⟩
        · rintro ⟨h1, h2, ⟨l, hl⟩, ⟨s, hs⟩⟩
          have hvf : vf = MxArray.mxInt64 l := Option.some.inj hl
          have hff : ff = MxArray.mxChar s := Option.some.inj hs
          subst hvf
          subst hff
          exact ⟨⟨h1, h2⟩, rfl, rfl⟩
  · simp [WriteString.serialize_struct_recursive_eq, structFields, WriteString.pass1SkipB,
      WriteString.pass2TakeB, WriteString.isCellOfStructsB, mxIsEmpty, mxIsStructB, mxIsCellB,
      WriteString.isFormattedIntStructB, WriteString.isOffsetDatetimeStructB,
      mxGetNumberOfFields, mxGetField, cellElems, WriteString.joinPath, strJoin,
      WriteString.serialize_value, WriteString.getFmtString, WriteString.getFmtValue,
      mkFmtStruct, mxIsInt64B, mxIsCharB, List.find?, WriteString.arrayOfTablesBlocks]
    rfl

/-- Emitting nothing for skipped entries equals filtering them away:
skip-style pass. -/
theorem strJoin_skip_filterMap {α : Type} (l : List α) (c : α → Bool) (s : α → String) :
    strJoin (l.map fun x => if c x then "" else s x) =
      strJoin (l.filterMap fun x => if c x then none else some (s x)) := by
  induction l with
  | nil => rfl
  | cons a l ih => cases hc : c a <;> simp [List.filterMap_cons, strJoin, hc, ih]

/-- Emitting nothing for skipped entries equals filtering them away:
take-style pass. -/
theorem strJoin_take_filterMap {α : Type} (l : List α) (c : α → Bool) (s : α → String) :
    strJoin (l.map fun x => if c x then s x else "") =
      strJoin (l.filterMap fun x => if c x then some (s x) else none) := by
  induction l with
  | nil => rfl
  | cons a l ih => cases hc : c a <;> simp [List.filterMap_cons, strJoin, hc, ih]

/-- The pass-3 inner loop as a join over the cell elements in order. -/
theorem arrayOfTablesBlocks_eq (elems : List MxArray) (path : String) :
    WriteString.arrayOfTablesBlocks elems path =
      strJoin (elems.map (fun e =>
        "\n[[" ++ path ++ "]]\n" ++ WriteString.serialize_struct_recursive e path)) := by
  induction elems with
  | nil =>
    rw [WriteString.arrayOfTablesBlocks.eq_def]
    rfl
  | cons e rest ih =>
    rw [WriteString.arrayOfTablesBlocks.eq_def]
    dsimp only
    rw [ih]
    rfl

/-- The pass-1 content of one field, as the specification describes it: a
`name = value` line for every field that is not empty, not a plain struct
and not a nonempty cell of structs. -/
def specPass1Line (f : String × MxArray) : Option String :=
  if WriteString.pass1SkipB f.2 then none
  else some (f.1 ++ " = " ++ WriteString.serialize_value f.2 ++ "\n")

/-- The pass-2 content of one field: a section header and the recursive
serialization for every plain (non-sentinel) struct. -/
def specPass2Section (pfx : String) (f : String × MxArray) : Option String :=
  if WriteString.pass2TakeB f.2 then
    some ("\n[" ++ WriteString.joinPath pfx f.1 ++ "]\n" ++
      WriteString.serialize_struct_recursive f.2 (WriteString.joinPath pfx f.1))
  else none

/-- The pass-3 content of one field: one `[[path]]` block per element, in
element order, for every nonempty cell of structs. -/
def specPass3Blocks (pfx : String) (f : String × MxArray) : Option String :=
  if WriteString.isCellOfStructsB f.2 then
    some (strJoin ((cellElems f.2).map (fun e =>
      "\n[[" ++ WriteString.joinPath pfx f.1 ++ "]]\n" ++
        WriteString.serialize_struct_recursive e (WriteString.joinPath pfx f.1))))
  else none

/-- C3: at every recursion level the writer's output is exactly three
non-interleaved passes — the pass-1 assignment lines of all fields, then
all pass-2 nested-table sections, then all pass-3 array-of-tables blocks —
and each pass ranges over the fields in declaration order (`filterMap`
preserves order).  Consequently, for the record with fields in order
`{a = 1, sub = {x = 2}, b = 3}` both `a = 1` and `b = 3` precede the
`[sub]` header even though `b` is declared after `sub`. -/
theorem c3_three_pass_writer :
    (∀ (fields : List (String × MxArray)) (pfx : String),
      WriteString.serialize_struct_recursive (MxArray.mxStruct fields) pfx =
        strJoin (fields.filterMap specPass1Line) ++
        strJoin (fields.filterMap (specPass2Section pfx)) ++
        strJoin (fields.filterMap (specPass3Blocks pfx))) ∧
    WriteString.serialize_struct_recursive
      (MxArray.mxStruct [("a", MxArray.mxInt64 [1]),
        ("sub", MxArray.mxStruct [("x", MxArray.mxInt64 [2])]),
        ("b", MxArray.mxInt64 [3])]) "" = "a = 1\nb = 3\n\n[sub]\nx = 2\n" := by
  constructor
  · intro fields pfx
    rw [WriteString.serialize_struct_recursive_eq]
    have hsf : structFields (MxArray.mxStruct fields) = fields := rfl
    rw [hsf]
    congr 1
    · congr 1
      · exact strJoin_skip_filterMap fields (fun f => WriteString.pass1SkipB f.2)
          (fun f => f.1 ++ " = " ++ WriteString.serialize_value f.2 ++ "\n")
      · exact strJoin_take_filterMap fields (fun f => WriteString.pass2TakeB f.2)
          (fun f => "\n[" ++ WriteString.joinPath pfx f.1 ++ "]\n" ++
            WriteString.serialize_struct_recursive f.2 (WriteString.joinPath pfx f.1))
    · have hmap : fields.map (fun f =>
          if WriteString.isCellOfStructsB f.2 then
            WriteString.arrayOfTablesBlocks (cellElems f.2) (WriteString.joinPath pfx f.1)
          else "") =
          fields.map (fun f =>
            if WriteString.isCellOfStructsB f.2 then
              strJoin ((cellElems f.2).map (fun e =>
                "\n[[" ++ WriteString.joinPath pfx f.1 ++ "]]\n" ++
                  WriteString.serialize_struct_recursive e (WriteString.joinPath pfx f.1)))
            else "") := by
        refine List.map_congr_left (fun f hf => ?_)
        cases hc : WriteString.isCellOfStructsB f.2 <;> simp [hc, arrayOfTablesBlocks_eq]
      rw [hmap]
      exact strJoin_take_filterMap fields (fun f => WriteString.isCellOfStructsB f.2)
        (fun f => strJoin ((cellElems f.2).map (fun e =>
          "\n[[" ++ WriteString.joinPath pfx f.1 ++ "]]\n" ++
            WriteString.serialize_struct_recursive e (WriteString.joinPath pfx f.1))))
  · simp [WriteString.serialize_struct_recursive_eq, structFields, WriteString.pass1SkipB,
      WriteString.pass2TakeB, WriteString.isCellOfStructsB, mxIsEmpty, mxIsStructB, mxIsCellB,
      WriteString.isFormattedIntStructB, WriteString.isOffsetDatetimeStructB,
      mxGetNumberOfFields, mxGetField, cellElems, WriteString.joinPath, strJoin,
      WriteString.serialize_value, WriteString.serialize_value_rest,
      WriteString.convert_mx_to_node.eq_def, tomlValueToString.eq_def, decRepr, natRepr,
      List.find?, WriteString.arrayOfTablesBlocks]
    rfl

/-- C8: evaluation of the numeric conversion at the failing input `2^63`.
The value `2^63` is integral but lies outside the signed 64-bit range
(`INT64_MAX = 2^63 - 1`), so the claimed rule requires a document Float;
the code compares against `INT64_MAX` converted to `double`, which rounds
up to `2^63`, and therefore produces a document Integer (through an
out-of-range cast that is undefined behaviour in the C++ source).  All four
conversion sites — the scalar and the vector-element path of both writers —
show the same behaviour. -/
theorem c8_numeric_conversion_at_failing_input :
    WriteString.convert_mx_to_node (MxArray.mxDouble [FVal.fin ⟨2 ^ 63, 1⟩]) =
      some (TomlNode.intg (2 ^ 63) false false false) ∧
    WriteFile.convert_mx_to_node (MxArray.mxDouble [FVal.fin ⟨2 ^ 63, 1⟩]) =
      some (TomlNode.intg (2 ^ 63) false false false) ∧
    WriteString.convert_numeric_array_to_toml [FVal.fin ⟨2 ^ 63, 1⟩] =
      [TomlNode.intg (2 ^ 63) false false false] ∧
    WriteFile.convert_numeric_array_to_toml [FVal.fin ⟨2 ^ 63, 1⟩] =
      [TomlNode.intg (2 ^ 63) false false false] ∧
    Dbl.isIntegral ⟨2 ^ 63, 1⟩ = true ∧
    ((2 : Int) ^ 63 - 1 < 2 ^ 63) := by
  refine ⟨?_, ?_, rfl, rfl, by decide, by decide⟩
  · rw [WriteString.convert_mx_to_node.eq_def]
    rfl
  · rw [WriteFile.convert_mx_to_node.eq_def]
    rfl

/-- C9: unsupported individual fields are skipped silently while the rest
of the struct is still converted — the produced table is exactly the
ordered `filterMap` of the convertible fields — and the fatal paths abort
with a single categorized error and no partial result: a parse failure in
the file reader surfaces `toml_parse_file:parseError` with the parser's
message, and a file that cannot be opened for writing surfaces
`toml_write_file:error`, while the success paths return the full converted
value.  The final conjunct shows a concrete struct whose middle field (a
MATLAB datetime, which the file writer cannot map) is skipped while both
neighbours are converted. -/
theorem c9_error_policy :
    (∀ fields : List (String × MxArray),
      WriteFile.convert_struct_to_table fields =
        fields.filterMap (fun f =>
          if mxIsEmpty f.2 then none
          else (WriteFile.convert_mx_to_node f.2).map
            (fun nd => (f.1, (none : Option SrcPos), nd)))) ∧
    (∀ e, ParseFile.mexFunction (Except.error e) =
      Except.error ⟨"toml_parse_file:parseError", "TOML parse error: " ++ e⟩) ∧
    (∀ fields, ParseFile.mexFunction (Except.ok fields) =
      Except.ok (ParseFile.convert_table fields)) ∧
    (∀ data, WriteFile.mexFunction data false =
      Except.error ⟨"toml_write_file:error", "Could not open file for writing"⟩) ∧
    (∀ data, WriteFile.mexFunction data true =
      Except.ok (TomlNode.table (WriteFile.convert_struct_to_table data))) ∧
    WriteFile.convert_struct_to_table
      [("a", MxArray.mxDouble [FVal.fin ⟨1, 1⟩]),
       ("ts", MxArray.mxDatetime 2020 1 2 3 4 ⟨5, 1⟩),
       ("b", MxArray.mxChar "x")] =
      [("a", none, TomlNode.intg 1 false false false), ("b", none, TomlNode.str "x")] := by
  have hmain : ∀ fields : List (String × MxArray),
      WriteFile.convert_struct_to_table fields =
        fields.filterMap (fun f =>
          if mxIsEmpty f.2 then none
          else (WriteFile.convert_mx_to_node f.2).map
            (fun nd => (f.1, (none : Option SrcPos), nd))) := by
    intro fields
    induction fields with
    | nil =>
      rw [WriteFile.convert_struct_to_table.eq_def]
      rfl
    | cons f rest ih =>
      obtain ⟨k, v⟩ := f
      rw [WriteFile.convert_struct_to_table.eq_def]
      dsimp only
      cases hE : mxIsEmpty v with
      | true => simp [List.filterMap_cons, hE, ih]
      | false =>
        cases hc : WriteFile.convert_mx_to_node v with
        | none => simp [List.filterMap_cons, hE, hc, ih]
        | some nd => simp [List.filterMap_cons, hE, hc, ih]
  refine ⟨hmain, fun e => rfl, fun fields => rfl, fun data => rfl, fun data => rfl, ?_⟩
  have h1 : WriteFile.convert_mx_to_node (MxArray.mxDouble [FVal.fin ⟨1, 1⟩]) =
      some (TomlNode.intg 1 false false false) := by
    rw [WriteFile.convert_mx_to_node.eq_def]
    rfl
  have h2 : WriteFile.convert_mx_to_node (MxArray.mxDatetime 2020 1 2 3 4 ⟨5, 1⟩) = none := by
    rw [WriteFile.convert_mx_to_node.eq_def]
    rfl
  have h3 : WriteFile.convert_mx_to_node (MxArray.mxChar "x") = some (TomlNode.str "x") := by
    rw [WriteFile.convert_mx_to_node.eq_def]
    rfl
  rw [hmain]
  simp only [List.filterMap_cons, h1, h2, h3]
  rfl

/-- Counterexample to C1: the mixed array `[1, 2.5]` is not converted to a
typed float vector with the integer widened — the float-vector branch
requires every element to satisfy `is_floating_point()`, which a document
integer does not — so both parsers produce a heterogeneous cell array of
the individually converted elements. -/
theorem c1_counterexample :
    ParseFile.convert_array [TomlNode.intg 1 false false false, TomlNode.flt (FVal.fin ⟨5, 2⟩)] =
      MxArray.mxCell [MxArray.mxInt64 [1], MxArray.mxDouble [FVal.fin ⟨5, 2⟩]] ∧
    ParseString.convert_array [TomlNode.intg 1 false false false,
      TomlNode.flt (FVal.fin ⟨5, 2⟩)] =
      MxArray.mxCell [MxArray.mxInt64 [1], MxArray.mxDouble [FVal.fin ⟨5, 2⟩]] ∧
    MxArray.mxCell [MxArray.mxInt64 [1], MxArray.mxDouble [FVal.fin ⟨5, 2⟩]] ≠
      MxArray.mxDouble [FVal.fin ⟨1, 1⟩, FVal.fin ⟨5, 2⟩] := by
  refine ⟨?_, ?_, fun hEq => MxArray.noConfusion hEq⟩
  · rw [ParseFile.convert_array, ParseFile.convert_node_arr]
    simp only [List.isEmpty_cons, List.all_cons, List.all_nil, isIntegerNode, isFloatNode,
      isBooleanNode, Bool.and_true, Bool.true_and, Bool.and_false, Bool.false_and,
      Bool.false_eq_true, if_false, List.map_cons, List.map_nil]
    rw [ParseFile.convert_node_intg, ParseFile.convert_node_flt]
    rfl
  · rw [ParseString.convert_array, ParseString.convert_node_arr_str]
    simp only [List.isEmpty_cons, List.all_cons, List.all_nil, isIntegerNode, isFloatNode,
      isBooleanNode, Bool.and_true, Bool.true_and, Bool.and_false, Bool.false_and,
      Bool.false_eq_true, if_false, List.map_cons, List.map_nil]
    rw [ParseString.convert_node_intg_str, ParseString.convert_node_flt_str]
    rfl

/-- C1 (amended): for every nonempty document array, both parsers classify
it in the order all-integer → `IntegerVector`, else all-float →
`FloatVector` (integers are not widened: an array mixing integers and
floats fails both tests), else all-boolean → `BooleanVector`, and
otherwise produce a `List` (cell array) of the individually converted
elements; `[1, 2.5]` falls into the heterogeneous case.  (An empty array
becomes an empty cell array.) -/
theorem c1_array_classification (elems : List TomlNode) (hne : elems ≠ []) :
    ((∀ e ∈ elems, isIntegerNode e = true) →
      ParseFile.convert_array elems = MxArray.mxInt64 (elems.map intValueOr0) ∧
      ParseString.convert_array elems = MxArray.mxInt64 (elems.map intValueOr0)) ∧
    (¬ (∀ e ∈ elems, isIntegerNode e = true) → (∀ e ∈ elems, isFloatNode e = true) →
      ParseFile.convert_array elems = MxArray.mxDouble (elems.map fltValueOr0) ∧
      ParseString.convert_array elems = MxArray.mxDouble (elems.map fltValueOr0)) ∧
    (¬ (∀ e ∈ elems, isIntegerNode e = true) → ¬ (∀ e ∈ elems, isFloatNode e = true) →
      (∀ e ∈ elems, isBooleanNode e = true) →
      ParseFile.convert_array elems = MxArray.mxLogical (elems.map boolValueOrFalse) ∧
      ParseString.convert_array elems = MxArray.mxLogical (elems.map boolValueOrFalse)) ∧
    (¬ (∀ e ∈ elems, isIntegerNode e = true) → ¬ (∀ e ∈ elems, isFloatNode e = true) →
      ¬ (∀ e ∈ elems, isBooleanNode e = true) →
      ParseFile.convert_array elems = MxArray.mxCell (elems.map ParseFile.convert_node) ∧
      ParseString.convert_array elems = MxArray.mxCell (elems.map ParseString.convert_node)) := by
  have hE : elems.isEmpty = false := by
    cases elems with
    | nil => exact absurd rfl hne
    | cons e rest => rfl
  refine ⟨fun hint => ?_, fun hni hflt => ?_, fun hni hnf hbool => ?_,
    fun hni hnf hnb => ?_⟩
  · have h2 : elems.all isIntegerNode = true := List.all_eq_true.mpr hint
    constructor
    · rw [ParseFile.convert_array, ParseFile.convert_node_arr, hE, h2]
      rfl
    · rw [ParseString.convert_array, ParseString.convert_node_arr_str, hE, h2]
      rfl
  · have h2 : elems.all isIntegerNode = false := by
      rw [Bool.eq_false_iff]
      intro hc
      exact hni (List.all_eq_true.mp hc)
    have h3 : elems.all isFloatNode = true := List.all_eq_true.mpr hflt
    constructor
    · rw [ParseFile.convert_array, ParseFile.convert_node_arr, hE, h2, h3]
      rfl
    · rw [ParseString.convert_array, ParseString.convert_node_arr_str, hE, h2, h3]
      rfl
  · have h2 : elems.all isIntegerNode = false := by
      rw [Bool.eq_false_iff]
      intro hc
      exact hni (List.all_eq_true.mp hc)
    have h3 : elems.all isFloatNode = false := by
      rw [Bool.eq_false_iff]
      intro hc
      exact hnf (List.all_eq_true.mp hc)
    have h4 : elems.all isBooleanNode = true := List.all_eq_true.mpr hbool
    constructor
    · rw [ParseFile.convert_array, ParseFile.convert_node_arr, hE, h2, h3, h4]
      rfl
    · rw [ParseString.convert_array, ParseString.convert_node_arr_str, hE, h2, h3, h4]
      rfl
  · have h2 : elems.all isIntegerNode = false := by
      rw [Bool.eq_false_iff]
      intro hc
      exact hni (List.all_eq_true.mp hc)
    have h3 : elems.all isFloatNode = false := by
      rw [Bool.eq_false_iff]
      intro hc
      exact hnf (List.all_eq_true.mp hc)
    have h4 : elems.all isBooleanNode = false := by
      rw [Bool.eq_false_iff]
      intro hc
      exact hnb (List.all_eq_true.mp hc)
    constructor
    · rw [ParseFile.convert_array, ParseFile.convert_node_arr, hE, h2, h3, h4]
      rfl
    · rw [ParseString.convert_array, ParseString.convert_node_arr_str, hE, h2, h3, h4]
      rfl

/-- Witness for C1 at the concrete mixed array `[1, 2.5]`, which lands in
the heterogeneous-list case. -/
theorem c1_array_classification_witness :
    (([TomlNode.intg 1 false false false, TomlNode.flt (FVal.fin ⟨5, 2⟩)] :
        List TomlNode) ≠ []) ∧
    ParseFile.convert_array [TomlNode.intg 1 false false false, TomlNode.flt (FVal.fin ⟨5, 2⟩)] =
      MxArray.mxCell ([TomlNode.intg 1 false false false,
        TomlNode.flt (FVal.fin ⟨5, 2⟩)].map ParseFile.convert_node) :=
  ⟨List.cons_ne_nil _ _,
    ((c1_array_classification _ (List.cons_ne_nil _ _)).2.2.2
      (by intro hall; exact absurd (hall _ (List.mem_cons_of_mem _ (List.mem_cons_self _ _))) (by decide))
      (by intro hall; exact absurd (hall _ (List.mem_cons_self _ _)) (by decide))
      (by intro hall; exact absurd (hall _ (List.mem_cons_self _ _)) (by decide))).1⟩

/-- Every decorated entry comes from a table entry: its key and node are the
entry's, and its position is the entry's source position or the sentinel. -/
theorem mem_decorateFields {fi : FieldInfo} {fields : List TableField}
    (h : fi ∈ decorateFields fields) :
    ∃ e ∈ fields, fi.key = e.1 ∧ fi.node = e.2.2 ∧
      ((∃ p, e.2.1 = some p ∧ fi.line = p.line ∧ fi.column = p.column) ∨
       (e.2.1 = none ∧ fi.line = uint32Sentinel ∧ fi.column = uint32Sentinel)) := by
  rw [decorateFields] at h
  obtain ⟨e, he, hfe⟩ := List.mem_map.1 h
  refine ⟨e, he, ?_⟩
  cases hp : e.2.1 with
  | some p =>
    rw [hp] at hfe
    rw [← hfe]
    exact ⟨rfl, rfl, Or.inl ⟨p, rfl, rfl, rfl⟩⟩
  | none =>
    rw [hp] at hfe
    rw [← hfe]
    exact ⟨rfl, rfl, Or.inr ⟨rfl, rfl, rfl⟩⟩

/-- Counterexample to C7: in the file-based reader a datetime with a
present offset is converted to a text value (the streamed RFC-3339 form),
not to a `{datetime, offset_minutes}` sentinel record, so sentinel
production does not hold in both reader entry points. -/
theorem c7_counterexample :
    ParseFile.convert_node (TomlNode.datetime ⟨2020, 1, 1⟩ ⟨0, 0, 0, 0⟩ (some 0)) =
      MxArray.mxChar "2020-01-01T00:00:00Z" ∧
    mxIsStructB
      (ParseFile.convert_node (TomlNode.datetime ⟨2020, 1, 1⟩ ⟨0, 0, 0, 0⟩ (some 0))) =
      false := by
  have h := ParseFile.convert_node_datetime ⟨2020, 1, 1⟩ ⟨0, 0, 0, 0⟩ (some 0)
  rw [h]
  exact ⟨rfl, rfl⟩

/-- C7 (amended): on read, every document integer carrying at least one
non-decimal base flag is produced as a `{value, format}` formatted-integer
sentinel by both reader entry points (the file reader labels it `hex` over
`oct` over `bin`, the string reader `bin` over `oct` over `hex`); a
datetime with a present offset is produced as a `{datetime,
offset_minutes}` sentinel only by the string-based reader, while the
file-based reader renders every temporal value as text. -/
theorem c7_sentinel_production (v : Int) (hx oc bn : Bool) (h : (hx || oc || bn) = true)
    (d : TDate) (t : TTime) (o : Int) :
    ParseFile.convert_node (TomlNode.intg v hx oc bn) =
      MxArray.mxStruct [("value", MxArray.mxInt64 [v]),
        ("format", MxArray.mxChar (if hx then "hex" else if oc then "oct" else "bin"))] ∧
    ParseString.convert_node (TomlNode.intg v hx oc bn) =
      MxArray.mxStruct [("value", MxArray.mxInt64 [v]),
        ("format", MxArray.mxChar
          (if bn then "bin" else if oc then "oct" else if hx then "hex" else "hex"))] ∧
    ParseString.convert_node (TomlNode.datetime d t (some o)) =
      MxArray.mxStruct [("datetime",
        MxArray.mxDatetime d.year d.month d.day t.hour t.minute (secondsWithNanos t)),
        ("offset_minutes", MxArray.mxDouble [FVal.fin (Dbl.ofInt o)])] ∧
    ParseFile.convert_node (TomlNode.datetime d t (some o)) =
      MxArray.mxChar (tomlDateTimeStr d t (some o)) := by
  refine ⟨?_, ?_, ?_, ?_⟩
  · rw [ParseFile.convert_node_intg, if_pos h]
  · rw [ParseString.convert_node_intg_str, if_pos h]
  · rw [ParseString.convert_node_datetime_str]
  · rw [ParseFile.convert_node_datetime]

/-- Witness for C7 at the hex-tagged integer `255` and the epoch datetime
with a one-hour offset. -/
theorem c7_sentinel_production_witness :
    ((true || false || false) = true) ∧
    ParseFile.convert_node (TomlNode.intg 255 true false false) =
      MxArray.mxStruct [("value", MxArray.mxInt64 [255]),
        ("format", MxArray.mxChar
          (if true then "hex" else if false then "oct" else "bin"))] :=
  ⟨rfl, (c7_sentinel_production 255 true false false rfl ⟨1970, 1, 1⟩ ⟨0, 0, 0, 0⟩ 60).1⟩

/-- Counterexample to C10: the two reader entry points are not equivalent.
A document date becomes text in the file reader but a MATLAB datetime in
the string reader, and an integer carrying both the hex and the bin flag is
labelled `hex` by the file reader but `bin` by the string reader. -/
theorem c10_counterexample :
    ParseFile.convert_node (TomlNode.date ⟨2020, 5, 6⟩) = MxArray.mxChar "2020-05-06" ∧
    ParseString.convert_node (TomlNode.date ⟨2020, 5, 6⟩) =
      MxArray.mxDatetime 2020 5 6 0 0 (Dbl.ofInt 0) ∧
    ParseFile.convert_node (TomlNode.date ⟨2020, 5, 6⟩) ≠
      ParseString.convert_node (TomlNode.date ⟨2020, 5, 6⟩) ∧
    ParseFile.convert_node (TomlNode.intg 7 true false true) = mkFmtStruct 7 "hex" ∧
    ParseString.convert_node (TomlNode.intg 7 true false true) = mkFmtStruct 7 "bin" ∧
    ParseFile.convert_node (TomlNode.intg 7 true false true) ≠
      ParseString.convert_node (TomlNode.intg 7 true false true) := by
  have h1 := ParseFile.convert_node_date ⟨2020, 5, 6⟩
  have h2 := ParseString.convert_node_date_str ⟨2020, 5, 6⟩
  have h3 := ParseFile.convert_node_intg 7 true false true
  have h4 := ParseString.convert_node_intg_str 7 true false true
  refine ⟨by rw [h1]; rfl, h2, ?_, by rw [h3]; rfl, by rw [h4]; rfl, ?_⟩
  · rw [h1, h2]
    intro hEq
    exact MxArray.noConfusion hEq
  · rw [h3, h4]
    simp [mkFmtStruct]

/-- Positivity of the size of a document node. -/
theorem tomlnode_sizeOf_pos (n : TomlNode) : 1 ≤ sizeOf n := by
  cases n <;> simp only [TomlNode.table.sizeOf_spec, TomlNode.arr.sizeOf_spec,
    TomlNode.str.sizeOf_spec, TomlNode.intg.sizeOf_spec, TomlNode.flt.sizeOf_spec,
    TomlNode.boolv.sizeOf_spec, TomlNode.date.sizeOf_spec, TomlNode.time.sizeOf_spec,
    TomlNode.datetime.sizeOf_spec] <;> omega

/-- The fragment of the document model on which the two readers can be
compared: no date, time or datetime anywhere in the tree, and no integer
carrying more than one base-format flag. -/
def agreeable : TomlNode → Bool
  | TomlNode.table fields => (fields.attach.map (fun f => agreeable f.1.2.2)).all (fun b => b)
  | TomlNode.arr elems => (elems.attach.map (fun e => agreeable e.1)).all (fun b => b)
  | TomlNode.str _ => true
  | TomlNode.intg _ hx oc bn => !(hx && oc) && !(hx && bn) && !(oc && bn)
  | TomlNode.flt _ => true
  | TomlNode.boolv _ => true
  | TomlNode.date _ => false
  | TomlNode.time _ => false
  | TomlNode.datetime _ _ _ => false
termination_by n => sizeOf n
decreasing_by
  · have hs : sizeOf f.1 < sizeOf fields := List.sizeOf_lt_of_mem f.2
    obtain ⟨f, hf⟩ := f
    obtain ⟨k, p, n⟩ := f
    simp only [Prod.mk.sizeOf_spec] at hs
    simp only [TomlNode.table.sizeOf_spec]
    omega
  · have hs : sizeOf e.1 < sizeOf elems := List.sizeOf_lt_of_mem e.2
    simp only [TomlNode.arr.sizeOf_spec]
    omega

theorem agreeable_table (fields : List TableField) :
    agreeable (TomlNode.table fields) =
      (fields.map (fun f => agreeable f.2.2)).all (fun b => b) := by
  rw [agreeable.eq_def]
  dsimp only
  congr 1
  exact List.attach_map_val fields (fun x => agreeable x.2.2)

theorem agreeable_arr (elems : List TomlNode) :
    agreeable (TomlNode.arr elems) = (elems.map agreeable).all (fun b => b) := by
  rw [agreeable.eq_def]
  dsimp only
  congr 1
  exact List.attach_map_val elems (fun x => agreeable x)

theorem agreeable_intg (v : Int) (hx oc bn : Bool) :
    agreeable (TomlNode.intg v hx oc bn) = (!(hx && oc) && !(hx && bn) && !(oc && bn)) := by
  rw [agreeable.eq_def]

/-- C10 (amended): the two reader entry points agree on every document node
that contains no date, time or datetime anywhere and no integer with more
than one base-format flag set; outside this fragment they differ as shown
by the counterexample (temporal values: text versus datetime/sentinel;
multi-flag integers: `hex`-first versus `bin`-first labelling). -/
theorem c10_reader_agreement (n : TomlNode) (hagree : agreeable n = true) :
    ParseFile.convert_node n = ParseString.convert_node n := by
  suffices H : ∀ (k : Nat) (m : TomlNode), sizeOf m ≤ k → agreeable m = true →
      ParseFile.convert_node m = ParseString.convert_node m by
    exact H (sizeOf n) n le_rfl hagree
  intro k
  induction k with
  | zero =>
    intro m hm _
    have := tomlnode_sizeOf_pos m
    omega
  | succ k ih =>
    intro m hm hA
    cases m with
    | table fields =>
      rw [ParseFile.convert_node_table, ParseString.convert_node_table_str]
      congr 1
      refine List.map_congr_left (fun fi hfi => ?_)
      have hsz : sizeOf fi.node < 1 + sizeOf fields := node_lt_of_mem_sortFields hfi
      have hk : sizeOf fi.node ≤ k := by
        simp only [TomlNode.table.sizeOf_spec] at hm
        omega
      have hAn : agreeable fi.node = true := by
        rw [agreeable_table, List.all_eq_true] at hA
        have hmem : fi ∈ decorateFields fields := by
          rw [sortFields, List.mem_insertionSort] at hfi
          exact hfi
        obtain ⟨e, he, -, hnode, -⟩ := mem_decorateFields hmem
        rw [hnode]
        exact hA (agreeable e.2.2) (List.mem_map_of_mem _ he)
      rw [ih fi.node hk hAn]
    | arr elems =>
      rw [ParseFile.convert_node_arr, ParseString.convert_node_arr_str]
      have hAe : ∀ e ∈ elems, agreeable e = true := by
        rw [agreeable_arr, List.all_eq_true] at hA
        intro e he
        exact hA _ (List.mem_map_of_mem _ he)
      by_cases h1 : elems.isEmpty = true
      · rw [if_pos h1, if_pos h1]
      · rw [if_neg h1, if_neg h1]
        by_cases h2 : elems.all isIntegerNode = true
        · rw [if_pos h2, if_pos h2]
        · rw [if_neg h2, if_neg h2]
          by_cases h3 : elems.all isFloatNode = true
          · rw [if_pos h3, if_pos h3]
          · rw [if_neg h3, if_neg h3]
            by_cases h4 : elems.all isBooleanNode = true
            · rw [if_pos h4, if_pos h4]
            · rw [if_neg h4, if_neg h4]
              congr 1
              refine List.map_congr_left (fun e he => ?_)
              have hk : sizeOf e ≤ k := by
                have h5 := List.sizeOf_lt_of_mem he
                simp only [TomlNode.arr.sizeOf_spec] at hm
                omega
              exact ih e hk (hAe e he)
    | str s => rw [ParseFile.convert_node_str, ParseString.convert_node_str_str]
    | intg v hx oc bn =>
      rw [ParseFile.convert_node_intg, ParseString.convert_node_intg_str]
      rw [agreeable_intg] at hA
      cases hx <;> cases oc <;> cases bn <;> simp_all
    | flt v => rw [ParseFile.convert_node_flt, ParseString.convert_node_flt_str]
    | boolv b => rw [ParseFile.convert_node_boolv, ParseString.convert_node_boolv_str]
    | date d =>
      rw [agreeable.eq_def] at hA
      exact absurd hA (by simp)
    | time t =>
      rw [agreeable.eq_def] at hA
      exact absurd hA (by simp)
    | datetime d t off =>
      rw [agreeable.eq_def] at hA
      exact absurd hA (by simp)

/-- Witness for C10 at a concrete temporal-free table. -/
theorem c10_reader_agreement_witness :
    agreeable (TomlNode.table [("k", some ⟨1, 1⟩, TomlNode.str "v"),
      ("n", some ⟨2, 1⟩, TomlNode.intg 3 false false false)]) = true ∧
    ParseFile.convert_node (TomlNode.table [("k", some ⟨1, 1⟩, TomlNode.str "v"),
      ("n", some ⟨2, 1⟩, TomlNode.intg 3 false false false)]) =
    ParseString.convert_node (TomlNode.table [("k", some ⟨1, 1⟩, TomlNode.str "v"),
      ("n", some ⟨2, 1⟩, TomlNode.intg 3 false false false)]) := by
  have hA : agreeable (TomlNode.table [("k", some ⟨1, 1⟩, TomlNode.str "v"),
      ("n", some ⟨2, 1⟩, TomlNode.intg 3 false false false)]) = true := by
    rw [agreeable_table]
    simp only [List.map_cons, List.map_nil]
    rw [agreeable.eq_def, agreeable.eq_def]
    rfl
  exact ⟨hA, c10_reader_agreement _ hA⟩
